import Mathlib

/-!
Verification development for the `ts-terraform` provider core.

The embedding covers the two core source files:
`packages/@ts-terraform/provider/src/provider.ts` (the provider façade) and
the cty translation / dynamic-value codec module it imports
(`cty-types.ts`, bundled in the same source file).

External collaborators that are not part of the repository source
(the structural type system `type-system.ts`, the diagnostics helper
`errors.ts`, the generated protocol client, and the JSON / msgpack codecs)
are modelled from the specification, at their boundary, as marked in the
doc comments below.
-/

namespace TsTerraform

/-- Presence marker for JavaScript expressions that may be `null`,
`undefined`, or an actual value of type `α`. -/
inductive JsOpt (α : Type) where
  | null
  | undef
  | val (a : α)
deriving DecidableEq

/-- Host-language (JavaScript) values: the data manipulated by the façade and
the dynamic value codec.  Numbers are modelled as integers; `vundef` is the
JavaScript `undefined` value, `vnull` is `null`. -/
inductive Value where
  | vnull
  | vundef
  | vbool (b : Bool)
  | vnum (n : Int)
  | vstr (s : String)
  | varr (xs : List Value)
  | vobj (fields : List (String × Value))

/-- JavaScript truthiness test (`!v` is `true` exactly on falsy values):
`null`, `undefined`, `false`, `0` and the empty string are falsy. -/
def Value.falsy : Value → Bool
  | .vnull => true
  | .vundef => true
  | .vbool b => !b
  | .vnum n => n == 0
  | .vstr s => s == ""
  | .varr _ => false
  | .vobj _ => false

/-- Nullish test used by the JavaScript `??` operator and `== null` loose
comparison: `true` exactly on `null` and `undefined`. -/
def Value.nullish : Value → Bool
  | .vnull => true
  | .vundef => true
  | _ => false

mutual

/-- Values faithfully representable by the wire codecs: everything built from
`null`, booleans, numbers, strings, arrays and string-keyed objects.
`undefined` is not representable (JSON and msgpack have no encoding for it),
mirroring the spec's list of values "accepted" by the encoders. -/
def Value.accepted : Value → Bool
  | .vnull => true
  | .vundef => false
  | .vbool _ => true
  | .vnum _ => true
  | .vstr _ => true
  | .varr xs => acceptedList xs
  | .vobj fs => acceptedFields fs

/-- All elements of the list are accepted. -/
def acceptedList : List Value → Bool
  | [] => true
  | v :: t => v.accepted && acceptedList t

/-- All field values are accepted. -/
def acceptedFields : List (String × Value) → Bool
  | [] => true
  | (_, v) :: t => v.accepted && acceptedFields t

end

/-!
Modelled from the spec: the byte-level serialization codecs.  The repository
serializes values with the external `msgpack` library (`toDynamic` /
`fromDynamic`) and with the JavaScript `JSON` builtin (`toRawState` /
`fromRawState`, private-data blobs, wire type descriptors).  Both are
external collaborators specified only at their boundary: a packed byte
encoding with `decode (encode v) = v` for accepted values, and a decode
failure on ill-formed input (in particular `JSON.parse ""` raises a
`SyntaxError`).  We realize that boundary with one concrete injective
token encoding; `vundef` is encoded like `vnull` (as the JSON serializer
does inside arrays), so that only `accepted` values round-trip.
-/

mutual

/-- Modelled from the spec: serialize a value to a token (byte) list. -/
def encodeVal : Value → List Nat
  | .vnull => [0]
  | .vundef => [0]
  | .vbool b => [1, if b then 1 else 0]
  | .vnum n => [2, if n < 0 then 1 else 0, n.natAbs]
  | .vstr s => 3 :: s.length :: s.data.map Char.toNat
  | .varr xs => 4 :: xs.length :: encodeList xs
  | .vobj fs => 5 :: fs.length :: encodeFields fs

/-- Serialize the elements of an array, concatenated. -/
def encodeList : List Value → List Nat
  | [] => []
  | v :: t => encodeVal v ++ encodeList t

/-- Serialize object fields: each key as length-prefixed characters, then the
value, concatenated. -/
def encodeFields : List (String × Value) → List Nat
  | [] => []
  | (k, v) :: t => (k.length :: k.data.map Char.toNat) ++ encodeVal v ++ encodeFields t

end

/-- Read `n` characters (length-prefixed string payload) off the token list. -/
def takeStr (n : Nat) (l : List Nat) : Option (String × List Nat) :=
  if n ≤ l.length then some (⟨(l.take n).map Char.ofNat⟩, l.drop n) else none

mutual

/-- Modelled from the spec: fuel-indexed decoder for the token encoding. -/
def decodeVal : Nat → List Nat → Option (Value × List Nat)
  | 0, _ => none
  | fuel + 1, input =>
    match input with
    | 0 :: r => some (.vnull, r)
    | 1 :: b :: r => some (.vbool (b == 1), r)
    | 2 :: s :: m :: r => some (.vnum (if s == 1 then -(m : Int) else (m : Int)), r)
    | 3 :: n :: r => (takeStr n r).map fun p => (.vstr p.1, p.2)
    | 4 :: n :: r => (decodeNList fuel n r).map fun p => (.varr p.1, p.2)
    | 5 :: n :: r => (decodeNFields fuel n r).map fun p => (.vobj p.1, p.2)
    | _ => none

/-- Decode exactly `n` consecutive values. -/
def decodeNList : Nat → Nat → List Nat → Option (List Value × List Nat)
  | 0, _, _ => none
  | _ + 1, 0, input => some ([], input)
  | fuel + 1, n + 1, input => do
    let p ← decodeVal fuel input
    let q ← decodeNList fuel n p.2
    pure (p.1 :: q.1, q.2)

/-- Decode exactly `n` consecutive key/value pairs. -/
def decodeNFields : Nat → Nat → List Nat → Option (List (String × Value) × List Nat)
  | 0, _, _ => none
  | _ + 1, 0, input => some ([], input)
  | fuel + 1, n + 1, input => do
    let kp ← match input with
      | len :: r => takeStr len r
      | [] => none
    let p ← decodeVal fuel kp.2
    let q ← decodeNFields fuel n p.2
    pure ((kp.1, p.1) :: q.1, q.2)

end

/-- Modelled from the spec: decode a complete byte payload into a value,
failing on ill-formed or trailing input.  Used as the model of both
`msgpack.unpack` and `JSON.parse` (after UTF-8 decoding). -/
def unpackVal (bs : List Nat) : Option Value :=
  match decodeVal (bs.length + 1) bs with
  | some (v, []) => some v
  | _ => none

/-- Wire diagnostic carried by protocol responses (severity, summary, detail). -/
structure Diagnostic where
  severity : Nat
  summary : String
  detail : String
deriving DecidableEq

/-- Errors thrown by the embedded code: `err` is a plain JavaScript `Error`,
`typeError` a `TypeError` (used for the InvalidType failures), `jsonError` a
`SyntaxError` from `JSON.parse`, `validationError` a structural validation
failure, and `diagnosticError` the `DiagnosticError` raised from non-empty
response diagnostics. -/
inductive Err where
  | err (msg : String)
  | typeError (msg : String)
  | jsonError (msg : String)
  | validationError (msg : String)
  | diagnosticError (diags : List Diagnostic)
deriving DecidableEq

/-- Modelled from the spec: the structural type tree of the Schema Type
System (`type-system.ts`, not under src/).  Constructors correspond to the
`T.boolean()`, `T.number()`, `T.string()`, `T.array`, `T.map`, `T.object`
and `T.optional` combinators; `object` keeps its properties as an ordered
association list, matching JavaScript object key order. -/
inductive SchemaType where
  | boolean
  | number
  | string
  | array (elem : SchemaType)
  | map (elem : SchemaType)
  | object (properties : List (String × SchemaType))
  | optional (inner : SchemaType)

/-- JavaScript object property assignment `obj[k] = v` on an ordered
association list: an existing key keeps its position and gets the new value,
a new key is appended at the end. -/
def objAssign {α : Type} (l : List (String × α)) (k : String) (v : α) :
    List (String × α) :=
  if l.any (fun p => p.1 == k) then
    l.map (fun p => if p.1 == k then (k, v) else p)
  else
    l ++ [(k, v)]

/-!
Embedding of `ctyToType` (cty-types.ts).  The wire type descriptor arrives
as a JSON document, so the function is embedded over parsed JSON `Value`s:
an atom is a JSON string, a tagged descriptor is a two-element array
`[tag, payload]`.  The JavaScript switch falls through to `schema[0]`
dispatch for any non-atom; indexing `null`/`undefined` raises a `TypeError`,
an unrecognized head raises the `Unknown type` error.  Payload shapes that
cannot occur in a well-formed descriptor (for example an `object` tag with
a non-object payload) are modelled as the same errors the JavaScript
evaluation reaches on them.
-/

mutual

/-- Embeds `ctyToType`: translate a parsed wire type descriptor into a
`SchemaType`.  An atom is dispatched by its string (the unsupported `any`
atom and unrecognized atoms fail); any other value falls through to the
`schema[0]` dispatch of `ctyTagged`; a value with no string head fails with
the `Unknown type` error (indexing `null`/`undefined` raises a `TypeError`
first, as in JavaScript). -/
def ctyToType : Value → Except Err SchemaType
  | .vstr s =>
    if s = "any" then .error (.err "unknown type")
    else if s = "bool" then .ok .boolean
    else if s = "number" then .ok .number
    else if s = "string" then .ok .string
    else .error (.err "Unknown type")
  | .vnull => .error (.typeError "Cannot read properties of null")
  | .vundef => .error (.typeError "Cannot read properties of undefined")
  | .varr (.vstr tag :: rest) => ctyTagged tag rest
  | _ => .error (.err "Unknown type")

/-- The `switch (schema[0])` dispatch of `ctyToType` on a tagged descriptor:
the payload `schema[1]` is the head of `rest`; the four collection tags
recurse into it, every other tag fails with the `Unknown type` error.  An
absent payload is JavaScript `undefined`: recursing into it raises the
`TypeError` written inline here (the value `ctyToType` gives `vundef`). -/
def ctyTagged (tag : String) (rest : List Value) : Except Err SchemaType :=
  if tag = "list" then
    match rest with
    | d :: _ => (ctyToType d).map SchemaType.array
    | [] => .error (.typeError "Cannot read properties of undefined")
  else if tag = "map" then
    match rest with
    | d :: _ => (ctyToType d).map SchemaType.map
    | [] => .error (.typeError "Cannot read properties of undefined")
  else if tag = "set" then
    match rest with
    | d :: _ => (ctyToType d).map SchemaType.array
    | [] => .error (.typeError "Cannot read properties of undefined")
  else if tag = "object" then
    match rest with
    | p :: _ => ctyObjectPayload p
    | [] => .error (.typeError "Cannot convert undefined or null to object")
  else .error (.err "Unknown type")

/-- The `object` branch of `ctyToType` on its payload, following the
JavaScript `Object.keys` semantics: an object payload translates its fields
in key order; `null`/`undefined` raise a `TypeError`; numbers and booleans
have no keys (empty object type); a string enumerates its character indices
(so any non-empty string reaches an unrecognized one-character descriptor);
an array enumerates its elements under their decimal index strings. -/
def ctyObjectPayload : Value → Except Err SchemaType
  | .vobj fs => (ctyFieldsAux fs []).map SchemaType.object
  | .vnull => .error (.typeError "Cannot convert undefined or null to object")
  | .vundef => .error (.typeError "Cannot convert undefined or null to object")
  | .vnum _ => .ok (.object [])
  | .vbool _ => .ok (.object [])
  | .vstr s => if s = "" then .ok (.object []) else .error (.err "Unknown type")
  | .varr ys => (ctyElemsIdx 0 ys).map SchemaType.object

/-- Embeds the `object` branch of `ctyToType`: translate each field in key
order, accumulating with JavaScript object spread semantics. -/
def ctyFieldsAux :
    List (String × Value) → List (String × SchemaType) →
      Except Err (List (String × SchemaType))
  | [], acc => .ok acc
  | (k, v) :: t, acc =>
    match ctyToType v with
    | .error e => .error e
    | .ok ty => ctyFieldsAux t (objAssign acc k ty)

/-- `Object.keys` semantics on an array payload: the keys are the decimal
indices, so each element is translated under its index string. -/
def ctyElemsIdx : Nat → List Value → Except Err (List (String × SchemaType))
  | _, [] => .ok []
  | i, v :: t =>
    match ctyToType v with
    | .error e => .error e
    | .ok ty =>
      match ctyElemsIdx (i + 1) t with
      | .error e => .error e
      | .ok rest => .ok ((toString i, ty) :: rest)

end

mutual

/-- Well-formed wire type descriptors (the `CtyTypeSchema` grammar without
the unsupported `any` atom): the domain on which decoding succeeds. -/
def wellFormedCty : Value → Bool
  | .vstr s => s == "bool" || s == "number" || s == "string"
  | .varr [.vstr t, d] =>
    if t == "list" || t == "map" || t == "set" then wellFormedCty d
    else if t == "object" then
      match d with
      | .vobj fs => wellFormedFields fs
      | _ => false
    else false
  | _ => false

/-- All field payloads are well-formed descriptors. -/
def wellFormedFields : List (String × Value) → Bool
  | [] => true
  | (_, v) :: t => wellFormedCty v && wellFormedFields t

end

/-- Embeds `decodeCtyType`: JSON-parse the descriptor bytes
(`JSON.parse(decoder.decode(input))`, a parse failure propagating as the
thrown `SyntaxError`), then translate with `ctyToType`. -/
def decodeCtyType (input : List Nat) : Except Err SchemaType :=
  match unpackVal input with
  | none => .error (.jsonError "Unexpected end of JSON input")
  | some v => ctyToType v


/-- Translation mode (`Kind` in cty-types.ts): the configuration-input view
`ARGS` or the persisted-state view `ATTRS`. -/
inductive Kind where
  | ARGS
  | ATTRS
deriving DecidableEq

/-- Nesting mode of a nested block (protocol enum
`tfplugin5.Schema.NestedBlock.NestingMode`). -/
inductive NestingMode where
  | INVALID
  | SINGLE
  | LIST
  | SET
  | MAP
  | GROUP
deriving DecidableEq

/-- Wire schema attribute (protocol `tfplugin5.Schema.IAttribute`): a name,
a byte-encoded JSON type descriptor, and independent requiredness flags.
Name and type may be absent on the generated interface. -/
structure Attribute where
  name : JsOpt String
  type : JsOpt (List Nat)
  required : Bool
  optional : Bool
  computed : Bool

/-- Shape of a wire nested block (protocol `tfplugin5.Schema.INestedBlock`),
parameterized by the block type to allow the mutual recursion with `Block`. -/
structure NestedBlockF (β : Type) where
  typeName : JsOpt String
  nesting : JsOpt NestingMode
  minItems : JsOpt Int
  maxItems : JsOpt Int
  block : JsOpt β

/-- Wire block schema (protocol `tfplugin5.Schema.IBlock`): a list of
attributes and a list of nested blocks, either possibly absent. -/
inductive Block where
  | mk (attributes : JsOpt (List Attribute)) (blockTypes : JsOpt (List (NestedBlockF Block)))

/-- Wire nested block (protocol `tfplugin5.Schema.INestedBlock`). -/
abbrev NestedBlock : Type := NestedBlockF Block

/-- JavaScript `?? []` on a possibly-absent list field. -/
def jsListD {α : Type} : JsOpt (List α) → List α
  | .val l => l
  | _ => []

/-- Attribute list of a block. -/
def Block.attributes : Block → JsOpt (List Attribute)
  | .mk a _ => a

/-- Nested block list of a block. -/
def Block.blockTypes : Block → JsOpt (List NestedBlock)
  | .mk _ b => b

/-- The optionality test of `blockToSchemaType` for one attribute:
`kind === Kind.ATTRS ? !attribute.required && !attribute.computed
: attribute.optional || attribute.computed`. -/
def attrOptionalCond (kind : Kind) (a : Attribute) : Bool :=
  match kind with
  | .ATTRS => !a.required && !a.computed
  | .ARGS => a.optional || a.computed

/-- The non-optionality test of `blockToSchemaType` for one nested block:
`minItems != null && minItems > 0 && nesting !== GROUP`. -/
def nestedRequiredCond (nb : NestedBlock) : Bool :=
  match nb.minItems with
  | .val m => m > 0 && nb.nesting != .val .GROUP
  | _ => false

/-- The attribute loop of `blockToSchemaType`: check type and name presence,
decode the type descriptor, apply the optionality rule, assign into the
accumulated object. -/
def attrsLoop (kind : Kind) :
    List Attribute → List (String × SchemaType) →
      Except Err (List (String × SchemaType))
  | [], attrs => .ok attrs
  | a :: rest, attrs =>
    match a.type with
    | .null => .error (.err "Unable to read attribute type")
    | .undef => .error (.err "Unable to read attribute type")
    | .val tbytes =>
      match a.name with
      | .null => .error (.err "Unable to read attribute name")
      | .undef => .error (.err "Unable to read attribute name")
      | .val name =>
        match decodeCtyType tbytes with
        | .error e => .error e
        | .ok t =>
          attrsLoop kind rest
            (objAssign attrs name (if attrOptionalCond kind a then .optional t else t))

mutual

/-- Embeds `blockToSchemaType` (cty-types.ts): translate the attributes
(each wrapped in `T.optional` according to `attrOptionalCond`), then, only
for `Kind.ARGS`, the nested blocks (wrapped in `T.optional` unless
`nestedRequiredCond` holds), into an object type. -/
def blockToSchemaType : Block → Kind → Except Err SchemaType
  | .mk attributes (.val bts), .ARGS =>
    match attrsLoop .ARGS (jsListD attributes) [] with
    | .error e => .error e
    | .ok attrs =>
      match nestedLoop .ARGS bts attrs with
      | .error e => .error e
      | .ok attrs2 => .ok (.object attrs2)
  | .mk attributes _, kind =>
    match attrsLoop kind (jsListD attributes) [] with
    | .error e => .error e
    | .ok attrs => .ok (.object attrs)

/-- The nested block loop of `blockToSchemaType` (reached only for ARGS):
check the name, translate the nested block, apply the min-items optionality
rule, assign into the accumulated object. -/
def nestedLoop (kind : Kind) :
    List NestedBlock → List (String × SchemaType) →
      Except Err (List (String × SchemaType))
  | [], attrs => .ok attrs
  | nb :: rest, attrs =>
    match nb.typeName with
    | .null => .error (.err "Unable to read nested block name")
    | .undef => .error (.err "Unable to read nested block name")
    | .val name =>
      if nestedRequiredCond nb then
        match nestedBlockToSchemaType nb kind with
        | .error e => .error e
        | .ok t => nestedLoop kind rest (objAssign attrs name t)
      else
        match nestedBlockToSchemaType nb kind with
        | .error e => .error e
        | .ok t => nestedLoop kind rest (objAssign attrs name (.optional t))

/-- Embeds `nestedBlockToSchemaType` (cty-types.ts): translate the inner
block, then wrap it according to the nesting mode: `SINGLE`/`GROUP` bare,
`LIST`/`SET` in an array unless `maxItems === 1`, `MAP` in a map; a
missing or `INVALID` nesting mode is an error, as is a missing inner
block. -/
def nestedBlockToSchemaType : NestedBlock → Kind → Except Err SchemaType
  | .mk _ nesting _ maxItems block, kind =>
    match block with
    | .null => .error (.err "Unable to read nested block schema")
    | .undef => .error (.err "Unable to read nested block schema")
    | .val b =>
      match blockToSchemaType b kind with
      | .error e => .error e
      | .ok innerSchema =>
        match nesting with
        | .null => .error (.err "Invalid nesting mode")
        | .undef => .error (.err "Invalid nesting mode")
        | .val .INVALID => .error (.err "Invalid nesting mode")
        | .val .SINGLE => .ok innerSchema
        | .val .LIST =>
          .ok (if maxItems = .val 1 then innerSchema else .array innerSchema)
        | .val .SET =>
          .ok (if maxItems = .val 1 then innerSchema else .array innerSchema)
        | .val .MAP => .ok (.map innerSchema)
        | .val .GROUP => .ok innerSchema

end

/-- Wire schema wrapper (protocol `tfplugin5.ISchema`): a version and a
block; only the block is consulted. -/
structure ISchema where
  block : JsOpt Block

/-- Embeds `tfSchemaToSchemaType` (cty-types.ts): fail with a `TypeError`
when the schema has no block, otherwise translate the block. -/
def tfSchemaToSchemaType (schema : ISchema) (kind : Kind) : Except Err SchemaType :=
  match schema.block with
  | .null => .error (.typeError "Could not read schema")
  | .undef => .error (.typeError "Could not read schema")
  | .val b => blockToSchemaType b kind

/-- The entry loop of `tfSchemasRecordToSchemaTypeRecord`. -/
def schemasLoop (kind : Kind) :
    List (String × ISchema) → List (String × SchemaType) →
      Except Err (List (String × SchemaType))
  | [], acc => .ok acc
  | (name, schema) :: rest, acc =>
    match tfSchemaToSchemaType schema kind with
    | .error e => .error e
    | .ok t => schemasLoop kind rest (objAssign acc name t)

/-- Embeds `tfSchemasRecordToSchemaTypeRecord` (cty-types.ts): translate
every named schema of the record (`Object.entries` order), building the
result record by property assignment. -/
def tfSchemasRecordToSchemaTypeRecord (schemas : List (String × ISchema)) (kind : Kind) :
    Except Err (List (String × SchemaType)) :=
  schemasLoop kind schemas []

/-- Wire dynamic value (protocol `tfplugin5.IDynamicValue`): carries the
packed msgpack bytes, possibly absent. -/
structure DynamicValue where
  msgpack : JsOpt (List Nat)
deriving DecidableEq

/-- Embeds `toDynamic` (cty-types.ts): `{msgpack: msgpack.pack(value)}`. -/
def toDynamic (value : Value) : DynamicValue :=
  ⟨.val (encodeVal value)⟩

/-- Embeds `fromDynamic` (cty-types.ts): a nullish input or a nullish packed
payload is returned unchanged (JavaScript `null`/`undefined` are `vnull` /
`vundef` here); otherwise the payload is unpacked, an unpack failure
propagating as a thrown error. -/
def fromDynamic : JsOpt DynamicValue → Except Err Value
  | .null => .ok .vnull
  | .undef => .ok .vundef
  | .val d =>
    match d.msgpack with
    | .null => .ok .vnull
    | .undef => .ok .vundef
    | .val bs =>
      match unpackVal bs with
      | some v => .ok v
      | none => .error (.err "unpack failed")

/-- Wire raw state (protocol `tfplugin5.IRawState`): a byte-encoded JSON
document, possibly absent. -/
structure RawState where
  json : JsOpt (List Nat)
deriving DecidableEq

/-- Embeds `toRawState` (cty-types.ts):
`{json: encoder.encode(JSON.stringify(value))}`. -/
def toRawState (value : Value) : RawState :=
  ⟨.val (encodeVal value)⟩

/-- Embeds `fromRawState` (cty-types.ts): mirrors `fromDynamic` with JSON
decoding of the byte payload instead of msgpack unpacking. -/
def fromRawState : JsOpt RawState → Except Err Value
  | .null => .ok .vnull
  | .undef => .ok .vundef
  | .val rs =>
    match rs.json with
    | .null => .ok .vnull
    | .undef => .ok .vundef
    | .val bs =>
      match unpackVal bs with
      | some v => .ok v
      | none => .error (.jsonError "Unexpected end of JSON input")

/-- JavaScript property read `value[key]` of an object: the stored value,
or `undefined` when the key is absent (or the value is not an object). -/
def jsGet (value : Value) (key : String) : Value :=
  match value with
  | .vobj fs =>
    match fs.find? (fun kv => kv.1 == key) with
    | some kv => kv.2
    | none => .vundef
  | _ => (.vundef)

/-- Properties of an object type (`schema.properties`). -/
def SchemaType.propsOf : SchemaType → List (String × SchemaType)
  | .object props => props
  | _ => []

/-- The key loop of `optionalsToNulls`:
`obj[key] = value[key] ?? null` over the declared property keys. -/
def optionalsLoop (value : Value) :
    List (String × SchemaType) → List (String × Value) → List (String × Value)
  | [], obj => obj
  | (key, _) :: rest, obj =>
    optionalsLoop value rest
      (objAssign obj key (if (jsGet value key).nullish then .vnull else jsGet value key))

/-- Embeds `optionalsToNulls` (cty-types.ts): for every declared property of
the object type, copy the corresponding input value, substituting `null`
for `null`/`undefined` (the `??` operator); keys not declared in the type
are not copied. -/
def optionalsToNulls (value : Value) (schema : SchemaType) : Value :=
  .vobj (optionalsLoop value schema.propsOf [])

/-- JavaScript property read on a field list (object lookup). -/
def jsGetFields (fs : List (String × Value)) (key : String) : Value :=
  match fs.find? (fun kv => kv.1 == key) with
  | some kv => kv.2
  | none => .vundef

mutual

/-- Modelled from the spec: the Schema Type System validator
(`validateOrThrow` of type-system.ts, not under src/).  A host value
structurally matches a type when primitives have the matching runtime shape,
arrays and maps match element-wise, and every declared object property
matches, optional properties being skipped when the input value is absent
or null. -/
def validate : SchemaType → Value → Bool
  | .boolean, .vbool _ => true
  | .number, .vnum _ => true
  | .string, .vstr _ => true
  | .array t, .varr xs => validateElems t xs
  | .map t, .vobj fs => validateMapVals t fs
  | .object props, .vobj fs => validateProps props fs
  | .optional t, v => v.nullish || validate t v
  | _, _ => false
termination_by t v => (sizeOf t, sizeOf v)

/-- Every array element matches the element type. -/
def validateElems (t : SchemaType) : List Value → Bool
  | [] => true
  | v :: rest => validate t v && validateElems t rest
termination_by l => (sizeOf t, sizeOf l)

/-- Every map value matches the element type. -/
def validateMapVals (t : SchemaType) : List (String × Value) → Bool
  | [] => true
  | (_, v) :: rest => validate t v && validateMapVals t rest
termination_by l => (sizeOf t, sizeOf l)

/-- Every declared property matches, in declaration order. -/
def validateProps : List (String × SchemaType) → List (String × Value) → Bool
  | [], _ => true
  | (key, t) :: rest, fs => validate t (jsGetFields fs key) && validateProps rest fs
termination_by props fs => (sizeOf props, sizeOf fs)

end

/-- Modelled from the spec: `validateOrThrow` (type-system.ts, not under
src/) raises a `ValidationError` when the value fails structural validation
against the schema, and returns normally otherwise. -/
def validateOrThrow (schema : SchemaType) (value : Value) : Except Err Unit :=
  if validate schema value then .ok () else .error (.validationError "structural mismatch")

/-- Modelled from the spec: `throwDiagnosticErrors` (errors.ts, not under
src/) raises a `DiagnosticError` carrying the response diagnostics list when
it is non-empty, and returns the response unchanged otherwise. -/
def throwDiagnosticErrors {α : Type} (diags : List Diagnostic) (res : α) : Except Err α :=
  if diags.isEmpty then .ok res else .error (.diagnosticError diags)

/-- The private-data request field
`options.private ? {priorPrivate: encoder.encode(JSON.stringify(options.private))} : {}`:
present on the wire request exactly when a (truthy) private mapping was
supplied, carrying its JSON encoding. -/
def privateDataField (priv : Option Value) : Option (List Nat) :=
  match priv with
  | some m => if m.falsy then none else some (encodeVal m)
  | none => none

/-- The private-data response decode expression
`JSON.parse(decoder.decode(b)) ?? {}`: `TextDecoder` turns an absent payload
into the empty string, `JSON.parse` throws a `SyntaxError` on it; a parsed
`null` is replaced by the empty object. -/
def parsePrivateExpr (b : JsOpt (List Nat)) : Except Err Value :=
  match unpackVal (match b with | .val bs => bs | _ => []) with
  | none => .error (.jsonError "Unexpected end of JSON input")
  | some v => .ok (if v.nullish then .vobj [] else v)

/-- The guarded private-data decode of `importResourceState`:
`ir.private != null ? JSON.parse(decoder.decode(ir.private)) ?? {} : {}`. -/
def parsePrivateGuarded (b : JsOpt (List Nat)) : Except Err Value :=
  match b with
  | .val bs =>
    match unpackVal bs with
    | none => .error (.jsonError "Unexpected end of JSON input")
    | some v => .ok (if v.nullish then .vobj [] else v)
  | _ => .ok (.vobj [])

/-- Record lookup `record[key]` on the façade's schema tables. -/
def recordGet {α : Type} (l : List (String × α)) (k : String) : Option α :=
  match l.find? (fun p => p.1 == k) with
  | some p => some p.2
  | none => none

/-- The provider façade state: the five schema trees decoded at
construction (provider.ts `Provider` class fields). -/
structure Provider where
  providerSchema : SchemaType
  dataSourceSchemas : List (String × SchemaType)
  resourceSchemas : List (String × SchemaType)
  dataSourceStateSchemas : List (String × SchemaType)
  resourceStateSchemas : List (String × SchemaType)

/-- Schema response (protocol `tfplugin5.GetProviderSchema.Response`). -/
structure GetProviderSchemaResponse where
  provider : JsOpt ISchema
  dataSourceSchemas : List (String × ISchema)
  resourceSchemas : List (String × ISchema)
  diagnostics : List Diagnostic

/-- Embeds the `Provider` constructor (provider.ts): fail with
`Unable to read provider schema` unless the schema response carries a
provider schema with a block, then build and retain the five schema trees:
provider ARGS, data-source ARGS, resource ARGS, data-source ATTRS,
resource ATTRS, in that order. -/
def providerConstructor (schema : GetProviderSchemaResponse) : Except Err Provider :=
  match schema.provider with
  | .null => .error (.err "Unable to read provider schema")
  | .undef => .error (.err "Unable to read provider schema")
  | .val ps =>
    match ps.block with
    | .null => .error (.err "Unable to read provider schema")
    | .undef => .error (.err "Unable to read provider schema")
    | .val _ =>
      match tfSchemaToSchemaType ps .ARGS with
      | .error e => .error e
      | .ok providerSchema =>
        match tfSchemasRecordToSchemaTypeRecord schema.dataSourceSchemas .ARGS with
        | .error e => .error e
        | .ok dsArgs =>
          match tfSchemasRecordToSchemaTypeRecord schema.resourceSchemas .ARGS with
          | .error e => .error e
          | .ok resArgs =>
            match tfSchemasRecordToSchemaTypeRecord schema.dataSourceSchemas .ATTRS with
            | .error e => .error e
            | .ok dsAttrs =>
              match tfSchemasRecordToSchemaTypeRecord schema.resourceSchemas .ATTRS with
              | .error e => .error e
              | .ok resAttrs => .ok ⟨providerSchema, dsArgs, resArgs, dsAttrs, resAttrs⟩

/-- Embeds `Provider.getSchema`: fetch the schema and surface diagnostics. -/
def Provider.getSchema (_p : Provider) (rpc : Unit → GetProviderSchemaResponse) :
    Except Err GetProviderSchemaResponse :=
  let res := rpc ()
  throwDiagnosticErrors res.diagnostics res

/-- Apply request (protocol `tfplugin5.ApplyResourceChange.Request`);
`priorPrivate` is present only when private data was supplied. -/
structure ApplyResourceChangeRequest where
  typeName : String
  priorState : DynamicValue
  plannedState : DynamicValue
  priorPrivate : Option (List Nat)
deriving DecidableEq

/-- Apply response (protocol `tfplugin5.ApplyResourceChange.Response`);
`privateBytes` embeds the wire field named `private` (a Lean keyword). -/
structure ApplyResourceChangeResponse where
  newState : JsOpt DynamicValue
  privateBytes : JsOpt (List Nat)
  diagnostics : List Diagnostic

/-- Result of `applyResourceChange`: the new state plus the private mapping
(`privateData` embeds the result field named `private`). -/
structure ApplyResult where
  newState : Value
  privateData : Value

/-- The wire request built by `applyResourceChange`. -/
def mkApplyRequest (typeName : String) (priorState plannedState : Value)
    (priv : Option Value) : ApplyResourceChangeRequest :=
  { typeName := typeName
    priorState := toDynamic priorState
    plannedState := toDynamic plannedState
    priorPrivate := privateDataField priv }

/-- Embeds `Provider.applyResourceChange` (provider.ts): encode both states
and the optional private mapping, call the apply RPC, surface diagnostics,
fail when the decoded new state is absent, decode the private bytes. -/
def Provider.applyResourceChange (_p : Provider) (typeName : String)
    (priorState plannedState : Value) (priv : Option Value)
    (rpc : ApplyResourceChangeRequest → ApplyResourceChangeResponse) :
    Except Err ApplyResult := do
  let res0 := rpc (mkApplyRequest typeName priorState plannedState priv)
  let res ← throwDiagnosticErrors res0.diagnostics res0
  let newState ← fromDynamic res.newState
  if newState.falsy then
    .error (.err "Unable to read planned state")
  else do
    let pd ← parsePrivateExpr res.privateBytes
    .ok ⟨newState, pd⟩

/-- Attribute path (protocol `tfplugin5.IAttributePath`), kept opaque. -/
structure AttributePath where
  steps : List String
deriving DecidableEq

/-- Plan request (protocol `tfplugin5.PlanResourceChange.Request`). -/
structure PlanResourceChangeRequest where
  typeName : String
  priorState : DynamicValue
  proposedNewState : DynamicValue
  priorPrivate : Option (List Nat)
deriving DecidableEq

/-- Plan response (protocol `tfplugin5.PlanResourceChange.Response`). -/
structure PlanResourceChangeResponse where
  plannedState : JsOpt DynamicValue
  requiresReplace : List AttributePath
  plannedPrivate : JsOpt (List Nat)
  diagnostics : List Diagnostic

/-- Result of `planResourceChange`. -/
structure PlanResult where
  plannedState : Value
  plannedPrivate : Value
  requiresReplace : List AttributePath

/-- The wire request built by `planResourceChange`. -/
def mkPlanRequest (typeName : String) (priorState proposedNewState : Value)
    (priv : Option Value) : PlanResourceChangeRequest :=
  { typeName := typeName
    priorState := toDynamic priorState
    proposedNewState := toDynamic proposedNewState
    priorPrivate := privateDataField priv }

/-- Embeds `Provider.planResourceChange` (provider.ts): look up the
resource state schema (failing with the InvalidType error when absent),
encode both states and the optional private mapping, call the plan RPC,
surface diagnostics, fail when the decoded planned state is absent, decode
the planned private bytes, and return the requires-replace list verbatim. -/
def Provider.planResourceChange (p : Provider) (typeName : String)
    (priorState proposedNewState : Value) (priv : Option Value)
    (rpc : PlanResourceChangeRequest → PlanResourceChangeResponse) :
    Except Err PlanResult := do
  match recordGet p.resourceStateSchemas typeName with
  | none => .error (.typeError ("Invalid resource type " ++ typeName))
  | some _ => do
    let res0 := rpc (mkPlanRequest typeName priorState proposedNewState priv)
    let res ← throwDiagnosticErrors res0.diagnostics res0
    let plannedState ← fromDynamic res.plannedState
    if plannedState.falsy then
      .error (.err "Unable to read planned state")
    else do
      let pd ← parsePrivateExpr res.plannedPrivate
      .ok ⟨plannedState, pd, res.requiresReplace⟩

/-- Read-data-source request (protocol `tfplugin5.ReadDataSource.Request`). -/
structure ReadDataSourceRequest where
  typeName : String
  config : DynamicValue
deriving DecidableEq

/-- Read-data-source response (protocol `tfplugin5.ReadDataSource.Response`). -/
structure ReadDataSourceResponse where
  state : JsOpt DynamicValue
  diagnostics : List Diagnostic

/-- The wire request built by `readDataSource` from the looked-up schema. -/
def mkReadDataSourceRequest (typeName : String) (config : Value)
    (dataSourceSchema : SchemaType) : ReadDataSourceRequest :=
  ⟨typeName, toDynamic (optionalsToNulls config dataSourceSchema)⟩

/-- Embeds `Provider.readDataSource` (provider.ts): look up the data source
ARGS schema (failing with the InvalidType error when absent), validate the
config, null-normalize and encode it, call the read RPC, surface
diagnostics, and fail when the decoded state is absent. -/
def Provider.readDataSource (p : Provider) (typeName : String) (config : Value)
    (rpc : ReadDataSourceRequest → ReadDataSourceResponse) : Except Err Value := do
  match recordGet p.dataSourceSchemas typeName with
  | none => .error (.typeError ("Invalid data source type " ++ typeName))
  | some dataSourceSchema => do
    let _ ← validateOrThrow dataSourceSchema config
    let res0 := rpc (mkReadDataSourceRequest typeName config dataSourceSchema)
    let res ← throwDiagnosticErrors res0.diagnostics res0
    let state ← fromDynamic res.state
    if state.falsy then
      .error (.err "Unable to read state from data source")
    else
      .ok state

/-- Read-resource request (protocol `tfplugin5.ReadResource.Request`);
`privateBytes` embeds the request field named `private`. -/
structure ReadResourceRequest where
  typeName : String
  currentState : DynamicValue
  privateBytes : Option (List Nat)
deriving DecidableEq

/-- Read-resource response (protocol `tfplugin5.ReadResource.Response`). -/
structure ReadResourceResponse where
  newState : JsOpt DynamicValue
  diagnostics : List Diagnostic

/-- The wire request built by `readResource`. -/
def mkReadResourceRequest (typeName : String) (currentState : Value)
    (priv : Option Value) : ReadResourceRequest :=
  ⟨typeName, toDynamic currentState, privateDataField priv⟩

/-- Embeds `Provider.readResource` (provider.ts): look up the resource state
schema (failing with the InvalidType error when absent), encode the current
state and the optional private mapping, call the read RPC, surface
diagnostics, and return the decoded state, an absent state resolving to
`undefined` (`state ?? undefined`) rather than failing. -/
def Provider.readResource (p : Provider) (typeName : String) (currentState : Value)
    (priv : Option Value)
    (rpc : ReadResourceRequest → ReadResourceResponse) : Except Err Value := do
  match recordGet p.resourceStateSchemas typeName with
  | none => .error (.typeError ("Invalid resource type " ++ typeName))
  | some _ => do
    let res0 := rpc (mkReadResourceRequest typeName currentState priv)
    let res ← throwDiagnosticErrors res0.diagnostics res0
    let state ← fromDynamic res.newState
    .ok (if state.nullish then .vundef else state)

/-- Prepare-provider-config request
(protocol `tfplugin5.PrepareProviderConfig.Request`). -/
structure PrepareProviderConfigRequest where
  config : DynamicValue
deriving DecidableEq

/-- Prepare-provider-config response
(protocol `tfplugin5.PrepareProviderConfig.Response`). -/
structure PrepareProviderConfigResponse where
  preparedConfig : JsOpt DynamicValue
  diagnostics : List Diagnostic

/-- Configure request (protocol `tfplugin5.Configure.Request`). -/
structure ConfigureRequest where
  config : DynamicValue
deriving DecidableEq

/-- Configure response (protocol `tfplugin5.Configure.Response`). -/
structure ConfigureResponse where
  diagnostics : List Diagnostic
deriving DecidableEq

/-- The wire request built by `configure` for the prepare step. -/
def mkPrepareRequest (config : Value) (providerSchema : SchemaType) :
    PrepareProviderConfigRequest :=
  ⟨toDynamic (optionalsToNulls config providerSchema)⟩

/-- Embeds `Provider.configure` (provider.ts): validate the config against
the provider ARGS schema, null-normalize and encode it, call prepare
(surfacing diagnostics, failing when no prepared config is returned), then
call configure with the prepared config (surfacing diagnostics). -/
def Provider.configure (p : Provider) (config : Value)
    (rpcPrepare : PrepareProviderConfigRequest → PrepareProviderConfigResponse)
    (rpcConfigure : ConfigureRequest → ConfigureResponse) :
    Except Err ConfigureResponse := do
  let _ ← validateOrThrow p.providerSchema config
  let pres0 := rpcPrepare (mkPrepareRequest config p.providerSchema)
  let pres ← throwDiagnosticErrors pres0.diagnostics pres0
  match pres.preparedConfig with
  | .null => .error (.err "Unable to prepare provider config")
  | .undef => .error (.err "Unable to prepare provider config")
  | .val preparedConfig => do
    let cres := rpcConfigure ⟨preparedConfig⟩
    throwDiagnosticErrors cres.diagnostics cres

/-- Import request (protocol `tfplugin5.ImportResourceState.Request`). -/
structure ImportResourceStateRequest where
  typeName : String
  id : String
deriving DecidableEq

/-- One imported resource record
(protocol `tfplugin5.ImportResourceState.IImportedResource`);
`privateBytes` embeds the wire field named `private`. -/
structure ImportedResource where
  typeName : JsOpt String
  state : JsOpt DynamicValue
  privateBytes : JsOpt (List Nat)

/-- Import response (protocol `tfplugin5.ImportResourceState.Response`). -/
structure ImportResourceStateResponse where
  importedResources : List ImportedResource
  diagnostics : List Diagnostic

/-- One decoded imported-resource result
(`privateData` embeds the result field named `private`). -/
structure ImportedRecord where
  typeName : String
  state : Value
  privateData : Value

/-- The record loop of `importResourceState`: check the type name, decode
and check the state, decode the guarded private bytes, in response order. -/
def importLoop : List ImportedResource → Except Err (List ImportedRecord)
  | [] => .ok []
  | ir :: rest =>
    match ir.typeName with
    | .null => .error (.err "Unable to read type name")
    | .undef => .error (.err "Unable to read type name")
    | .val tn => do
      let state ← fromDynamic ir.state
      if state.falsy then
        .error (.err "Unable to read state")
      else do
        let pd ← parsePrivateGuarded ir.privateBytes
        let rest2 ← importLoop rest
        .ok (⟨tn, state, pd⟩ :: rest2)

/-- Embeds `Provider.importResourceState` (provider.ts): call the import
RPC, surface diagnostics, then decode each imported-resource record. -/
def Provider.importResourceState (_p : Provider) (typeName id : String)
    (rpc : ImportResourceStateRequest → ImportResourceStateResponse) :
    Except Err (List ImportedRecord) := do
  let res0 := rpc ⟨typeName, id⟩
  let res ← throwDiagnosticErrors res0.diagnostics res0
  importLoop res.importedResources

/-- Upgrade request (protocol `tfplugin5.UpgradeResourceState.Request`). -/
structure UpgradeResourceStateRequest where
  typeName : String
  version : Int
  rawState : RawState
deriving DecidableEq

/-- Upgrade response (protocol `tfplugin5.UpgradeResourceState.Response`). -/
structure UpgradeResourceStateResponse where
  upgradedState : JsOpt DynamicValue
  diagnostics : List Diagnostic

/-- The wire request built by `upgradeResourceState`. -/
def mkUpgradeRequest (typeName : String) (version : Int) (state : Value) :
    UpgradeResourceStateRequest :=
  ⟨typeName, version, toRawState state⟩

/-- Embeds `Provider.upgradeResourceState` (provider.ts): encode the state
with the raw JSON encoding, call the upgrade RPC, surface diagnostics, and
fail when the decoded upgraded state is absent. -/
def Provider.upgradeResourceState (_p : Provider) (typeName : String) (version : Int)
    (state : Value)
    (rpc : UpgradeResourceStateRequest → UpgradeResourceStateResponse) :
    Except Err Value := do
  let res0 := rpc (mkUpgradeRequest typeName version state)
  let res ← throwDiagnosticErrors res0.diagnostics res0
  let upgradedState ← fromDynamic res.upgradedState
  if upgradedState.falsy then
    .error (.err "Unable to upgrade resource state")
  else
    .ok upgradedState

/-- Validate-data-source-config request
(protocol `tfplugin5.ValidateDataSourceConfig.Request`). -/
structure ValidateDataSourceConfigRequest where
  typeName : String
  config : DynamicValue
deriving DecidableEq

/-- Validate-data-source-config response
(protocol `tfplugin5.ValidateDataSourceConfig.Response`). -/
structure ValidateDataSourceConfigResponse where
  diagnostics : List Diagnostic
deriving DecidableEq

/-- Embeds `Provider.validateDataSourceConfig` (provider.ts): encode and
forward, returning the raw response with its diagnostics as data (no
diagnostics check, no schema lookup). -/
def Provider.validateDataSourceConfig (_p : Provider) (typeName : String) (config : Value)
    (rpc : ValidateDataSourceConfigRequest → ValidateDataSourceConfigResponse) :
    Except Err ValidateDataSourceConfigResponse :=
  .ok (rpc ⟨typeName, toDynamic config⟩)

/-- Validate-resource-type-config request
(protocol `tfplugin5.ValidateResourceTypeConfig.Request`). -/
structure ValidateResourceTypeConfigRequest where
  typeName : String
  config : DynamicValue
deriving DecidableEq

/-- Validate-resource-type-config response
(protocol `tfplugin5.ValidateResourceTypeConfig.Response`). -/
structure ValidateResourceTypeConfigResponse where
  diagnostics : List Diagnostic
deriving DecidableEq

/-- Embeds `Provider.validateResourceTypeConfig` (provider.ts): encode and
forward, returning the raw response with its diagnostics as data (no
diagnostics check, no schema lookup). -/
def Provider.validateResourceTypeConfig (_p : Provider) (typeName : String) (config : Value)
    (rpc : ValidateResourceTypeConfigRequest → ValidateResourceTypeConfigResponse) :
    Except Err ValidateResourceTypeConfigResponse :=
  .ok (rpc ⟨typeName, toDynamic config⟩)

/-- Generic form of the object-building loops: apply a step to each element,
assigning the produced name/value pair into the accumulated object, stopping
at the first error.  `attrsLoop`, `nestedLoop` and `optionalsLoop` are
instances (proved below), letting their lookup lemmas be shared. -/
def assignLoop {α β : Type} (f : α → Except Err (String × β)) :
    List α → List (String × β) → Except Err (List (String × β))
  | [], acc => .ok acc
  | x :: rest, acc =>
    match f x with
    | .error e => .error e
    | .ok nv => assignLoop f rest (objAssign acc nv.1 nv.2)

/-- The step of `attrsLoop` for one attribute. -/
def attrStep (kind : Kind) (a : Attribute) : Except Err (String × SchemaType) :=
  match a.type with
  | .null => .error (.err "Unable to read attribute type")
  | .undef => .error (.err "Unable to read attribute type")
  | .val tbytes =>
    match a.name with
    | .null => .error (.err "Unable to read attribute name")
    | .undef => .error (.err "Unable to read attribute name")
    | .val name =>
      match decodeCtyType tbytes with
      | .error e => .error e
      | .ok t => .ok (name, if attrOptionalCond kind a then .optional t else t)

/-- The step of `nestedLoop` for one nested block. -/
def nestedStep (kind : Kind) (nb : NestedBlock) : Except Err (String × SchemaType) :=
  match nb.typeName with
  | .null => .error (.err "Unable to read nested block name")
  | .undef => .error (.err "Unable to read nested block name")
  | .val name =>
    match nestedBlockToSchemaType nb kind with
    | .error e => .error e
    | .ok t => .ok (name, if nestedRequiredCond nb then t else .optional t)

/-- The step of `optionalsLoop` for one declared property (never fails). -/
def optionalsStep (value : Value) (kv : String × SchemaType) :
    Except Err (String × Value) :=
  .ok (kv.1, if (jsGet value kv.1).nullish then .vnull else jsGet value kv.1)

/-- Names produced by the successful steps of a loop. -/
def stepNames {α β : Type} (f : α → Except Err (String × β)) (xs : List α) :
    List String :=
  xs.filterMap (fun a => match f a with | .ok nv => some nv.1 | .error _ => none)

/-- Fields of an object value (empty for non-objects). -/
def Value.objFields : Value → List (String × Value)
  | .vobj fs => fs
  | _ => []

/-- Whether a translation result is an object type whose property `k` is
marked optional. -/
def resultPropIsOptional (r : Except Err SchemaType) (k : String) : Bool :=
  match r with
  | .ok (.object props) =>
    match props.find? (fun p => p.1 == k) with
    | some (_, .optional _) => true
    | _ => false
  | _ => false

end TsTerraform

namespace TsTerraform

theorem encodeVal_length_pos (v : Value) : 0 < (encodeVal v).length := by
  cases v <;> simp [encodeVal]

theorem charList_roundtrip (l : List Char) : (l.map Char.toNat).map Char.ofNat = l := by
  induction l with
  | nil => rfl
  | cons c t ih => simp [ih]

theorem takeStr_append (s : String) (r : List Nat) :
    takeStr s.length (s.data.map Char.toNat ++ r) = some (s, r) := by
  have hlen : (s.data.map Char.toNat).length = s.length := by
    rw [List.length_map]
    rfl
  rw [takeStr, if_pos (by rw [List.length_append]; omega)]
  rw [List.take_left' hlen, List.drop_left' hlen, charList_roundtrip]

theorem decodeVal_num1 (fuel m : Nat) (r : List Nat) :
    decodeVal (fuel + 1) (2 :: 1 :: m :: r) = some (.vnum (-(m : Int)), r) := rfl

theorem decodeVal_num0 (fuel m : Nat) (r : List Nat) :
    decodeVal (fuel + 1) (2 :: 0 :: m :: r) = some (.vnum ((m : Int)), r) := rfl

/-- Core round-trip property of the modelled codec, by induction on fuel. -/
theorem decode_encode (fuel : Nat) :
    (∀ v r, Value.accepted v → (encodeVal v).length ≤ fuel →
      decodeVal fuel (encodeVal v ++ r) = some (v, r)) ∧
    (∀ xs r, acceptedList xs → (encodeList xs).length + 1 ≤ fuel →
      decodeNList fuel xs.length (encodeList xs ++ r) = some (xs, r)) ∧
    (∀ fs r, acceptedFields fs → (encodeFields fs).length + 1 ≤ fuel →
      decodeNFields fuel fs.length (encodeFields fs ++ r) = some (fs, r)) := by
  induction fuel with
  | zero =>
    refine ⟨fun v r _ hle => ?_, fun xs r _ hle => by omega, fun fs r _ hle => by omega⟩
    have := encodeVal_length_pos v
    omega
  | succ fuel ih =>
    obtain ⟨ihV, ihL, ihF⟩ := ih
    refine ⟨?_, ?_, ?_⟩
    · intro v r hacc hle
      cases v with
      | vnull => simp [encodeVal, decodeVal]
      | vundef => simp [Value.accepted] at hacc
      | vbool b => cases b <;> simp [encodeVal, decodeVal]
      | vnum n =>
        by_cases hneg : n < 0
        · have h1 : (if n < 0 then (1 : Nat) else 0) = 1 := by simp [hneg]
          simp only [encodeVal, h1, List.cons_append, List.nil_append, decodeVal_num1]
          rw [(by omega : -((n.natAbs : Nat) : Int) = n)]
        · have h0 : (if n < 0 then (1 : Nat) else 0) = 0 := by simp [hneg]
          simp only [encodeVal, h0, List.cons_append, List.nil_append, decodeVal_num0]
          rw [(by omega : ((n.natAbs : Nat) : Int) = n)]
      | vstr s =>
        simp only [encodeVal, decodeVal, List.cons_append]
        rw [takeStr_append]
        rfl
      | varr xs =>
        simp only [encodeVal, decodeVal, List.cons_append]
        rw [ihL xs r (by simpa [Value.accepted] using hacc)
          (by simp [encodeVal] at hle; omega)]
        rfl
      | vobj fs =>
        simp only [encodeVal, decodeVal, List.cons_append]
        rw [ihF fs r (by simpa [Value.accepted] using hacc)
          (by simp [encodeVal] at hle; omega)]
        rfl
    · intro xs r hacc hle
      cases xs with
      | nil => simp [encodeList, decodeNList]
      | cons v t =>
        simp only [acceptedList, Bool.and_eq_true] at hacc
        simp only [encodeList, List.length_append] at hle
        have h1 := encodeVal_length_pos v
        simp only [List.length_cons, decodeNList, encodeList, List.append_assoc]
        rw [ihV v _ hacc.1 (by omega)]
        simp only [Option.bind_eq_bind, Option.some_bind]
        rw [ihL t r hacc.2 (by omega)]
        rfl
    · intro fs r hacc hle
      cases fs with
      | nil => simp [encodeFields, decodeNFields]
      | cons kv t =>
        obtain ⟨k, v⟩ := kv
        simp only [acceptedFields, Bool.and_eq_true] at hacc
        simp only [encodeFields, List.length_append, List.length_cons] at hle
        have h1 := encodeVal_length_pos v
        simp only [List.length_cons, decodeNFields, encodeFields, List.cons_append,
          List.append_assoc]
        rw [takeStr_append]
        simp only [Option.bind_eq_bind, Option.some_bind]
        rw [ihV v _ hacc.1 (by omega)]
        simp only [Option.some_bind]
        rw [ihF t r hacc.2 (by omega)]
        rfl

/-- Round-trip of the modelled codec: decoding an encoded accepted value
recovers the value. -/
theorem unpackVal_encodeVal (v : Value) (hacc : Value.accepted v) :
    unpackVal (encodeVal v) = some v := by
  have h := (decode_encode ((encodeVal v).length + 1)).1 v [] hacc (by omega)
  rw [List.append_nil] at h
  unfold unpackVal
  rw [h]



theorem find?_map_assign {α : Type} (l : List (String × α)) (k : String) (v : α)
    (h : l.any (fun p => p.1 == k) = true) :
    (l.map (fun p => if p.1 == k then (k, v) else p)).find? (fun p => p.1 == k)
      = some (k, v) := by
  induction l with
  | nil => simp at h
  | cons p0 t ih =>
    simp only [List.map_cons]
    by_cases hk : (p0.1 == k) = true
    · rw [if_pos hk]
      simp only [List.find?_cons, beq_self_eq_true]
    · rw [if_neg hk]
      rw [Bool.not_eq_true] at hk
      simp only [List.find?_cons, hk]
      exact ih (by simpa [List.any_cons, hk] using h)

theorem find?_objAssign_self {α : Type} (l : List (String × α)) (k : String) (v : α) :
    (objAssign l k v).find? (fun p => p.1 == k) = some (k, v) := by
  unfold objAssign
  by_cases h : l.any (fun p => p.1 == k)
  · rw [if_pos h]
    exact find?_map_assign l k v h
  · rw [if_neg h]
    induction l with
    | nil => simp only [List.nil_append, List.find?_cons, beq_self_eq_true]
    | cons p0 t ih =>
      have hk : (p0.1 == k) = false := by
        by_contra hc
        simp only [Bool.not_eq_false] at hc
        exact h (by simp [List.any_cons, hc])
      rw [List.cons_append]
      simp only [List.find?_cons, hk]
      exact ih (by simp [List.any_cons] at h ⊢; exact h.2)

theorem find?_objAssign_other {α : Type} (l : List (String × α)) (k k2 : String) (v : α)
    (hne : k2 ≠ k) :
    (objAssign l k v).find? (fun p => p.1 == k2) = l.find? (fun p => p.1 == k2) := by
  unfold objAssign
  by_cases h : l.any (fun p => p.1 == k)
  · rw [if_pos h]
    clear h
    induction l with
    | nil => simp
    | cons p0 t ih =>
      simp only [List.map_cons]
      by_cases hk : (p0.1 == k) = true
      · rw [if_pos hk]
        have h1 : (k == k2) = false := by
          simp only [beq_eq_false_iff_ne, ne_eq]
          exact fun hc => hne hc.symm
        have h2 : (p0.1 == k2) = false := by
          rw [beq_iff_eq] at hk
          rw [hk]
          exact h1
        simp only [List.find?_cons, h1, h2]
        exact ih
      · rw [if_neg hk]
        by_cases h2 : (p0.1 == k2) = true
        · simp only [List.find?_cons, h2]
        · rw [Bool.not_eq_true] at h2
          simp only [List.find?_cons, h2]
          exact ih
  · rw [if_neg h]
    induction l with
    | nil =>
      have h1 : (k == k2) = false := by
        simp only [beq_eq_false_iff_ne, ne_eq]
        exact fun hc => hne hc.symm
      simp only [List.nil_append, List.find?_cons, h1, List.find?_nil]
    | cons p0 t ih =>
      rw [List.cons_append]
      by_cases h2 : (p0.1 == k2) = true
      · simp only [List.find?_cons, h2]
      · rw [Bool.not_eq_true] at h2
        simp only [List.find?_cons, h2]
        exact ih (by simp [List.any_cons] at h ⊢; exact h.2)

theorem map_fst_objAssign {α : Type} (l : List (String × α)) (k : String) (v : α)
    (x : String) :
    x ∈ (objAssign l k v).map Prod.fst ↔ x ∈ l.map Prod.fst ∨ x = k := by
  unfold objAssign
  by_cases h : l.any (fun p => p.1 == k)
  · rw [if_pos h]
    rw [List.any_eq_true] at h
    obtain ⟨p0, hp0mem, hp0k⟩ := h
    rw [beq_iff_eq] at hp0k
    simp only [List.map_map, List.mem_map, Function.comp]
    constructor
    · rintro ⟨p, hpmem, hpx⟩
      by_cases hk : (p.1 == k) = true
      · rw [if_pos hk] at hpx
        right
        exact hpx ▸ rfl
      · rw [if_neg hk] at hpx
        left
        exact ⟨p, hpmem, hpx⟩
    · rintro (hx | rfl)
      · obtain ⟨p, hpmem, hpx⟩ := hx
        by_cases hk : (p.1 == k) = true
        · refine ⟨p0, hp0mem, ?_⟩
          rw [if_pos (by rw [beq_iff_eq]; exact hp0k)]
          rw [beq_iff_eq] at hk
          rw [← hpx, hk]
        · exact ⟨p, hpmem, by rw [if_neg hk]; exact hpx⟩
      · exact ⟨p0, hp0mem, by rw [if_pos (by rw [beq_iff_eq]; exact hp0k)]⟩
  · rw [if_neg h]
    simp


theorem stepNames_cons {α β : Type} (f : α → Except Err (String × β)) (a : α)
    (rest : List α) :
    stepNames f (a :: rest)
      = match f a with
        | .ok nv => nv.1 :: stepNames f rest
        | .error _ => stepNames f rest := by
  unfold stepNames
  rw [List.filterMap_cons]
  cases f a <;> rfl

theorem assignLoop_keys {α β : Type} (f : α → Except Err (String × β)) (xs : List α)
    (acc out : List (String × β)) (hok : assignLoop f xs acc = .ok out) (x : String) :
    x ∈ out.map Prod.fst ↔ x ∈ acc.map Prod.fst ∨ x ∈ stepNames f xs := by
  induction xs generalizing acc with
  | nil =>
    simp only [assignLoop, Except.ok.injEq] at hok
    subst hok
    simp [stepNames]
  | cons a rest ih =>
    simp only [assignLoop] at hok
    cases hf : f a with
    | error e =>
      rw [hf] at hok
      simp at hok
    | ok nv =>
      rw [hf] at hok
      rw [ih _ hok, map_fst_objAssign, stepNames_cons, hf]
      simp only [List.mem_cons]
      tauto

theorem assignLoop_find?_preserve {α β : Type} (f : α → Except Err (String × β))
    (xs : List α) (acc out : List (String × β)) (x : String)
    (hok : assignLoop f xs acc = .ok out) (hx : x ∉ stepNames f xs) :
    out.find? (fun p => p.1 == x) = acc.find? (fun p => p.1 == x) := by
  induction xs generalizing acc with
  | nil =>
    simp only [assignLoop, Except.ok.injEq] at hok
    subst hok
    rfl
  | cons a rest ih =>
    simp only [assignLoop] at hok
    cases hf : f a with
    | error e =>
      rw [hf] at hok
      simp at hok
    | ok nv =>
      rw [hf] at hok
      rw [stepNames_cons, hf] at hx
      simp only [List.mem_cons, not_or] at hx
      rw [ih _ hok hx.2]
      exact find?_objAssign_other acc nv.1 x nv.2 hx.1

theorem assignLoop_find?_of_mem {α β : Type} (f : α → Except Err (String × β))
    (xs : List α) (a : α) (n : String) (v : β) (hf : f a = .ok (n, v)) :
    ∀ acc out, assignLoop f xs acc = .ok out → (stepNames f xs).Nodup → a ∈ xs →
      out.find? (fun p => p.1 == n) = some (n, v) := by
  induction xs with
  | nil =>
    intro acc out hok hnd ha
    simp at ha
  | cons a0 rest ih =>
    intro acc out hok hnd ha
    simp only [assignLoop] at hok
    cases hf0 : f a0 with
    | error e =>
      rw [hf0] at hok
      simp at hok
    | ok nv0 =>
      rw [hf0] at hok
      rw [stepNames_cons, hf0] at hnd
      rcases List.mem_cons.mp ha with rfl | ha2
      · rw [hf0] at hf
        injection hf with hf
        subst hf
        have hnotin : n ∉ stepNames f rest := (List.nodup_cons.mp hnd).1
        rw [assignLoop_find?_preserve f rest _ out n hok hnotin]
        exact find?_objAssign_self acc n v
      · exact ih _ _ hok (List.nodup_cons.mp hnd).2 ha2

theorem attrsLoop_eq (kind : Kind) (as : List Attribute)
    (acc : List (String × SchemaType)) :
    attrsLoop kind as acc = assignLoop (attrStep kind) as acc := by
  induction as generalizing acc with
  | nil => rfl
  | cons a rest ih =>
    obtain ⟨nm, tp, rq, op, cp⟩ := a
    cases tp with
    | null => rfl
    | undef => rfl
    | val tb =>
      cases nm with
      | null => rfl
      | undef => rfl
      | val n =>
        cases hdec : decodeCtyType tb with
        | error e => simp only [attrsLoop, assignLoop, attrStep, hdec]
        | ok t =>
          simp only [attrsLoop, assignLoop, attrStep, hdec]
          exact ih _

theorem nestedLoop_eq (kind : Kind) (nbs : List NestedBlock)
    (acc : List (String × SchemaType)) :
    nestedLoop kind nbs acc = assignLoop (nestedStep kind) nbs acc := by
  induction nbs generalizing acc with
  | nil => simp only [nestedLoop, assignLoop]
  | cons nb rest ih =>
    cases htn : nb.typeName with
    | null => simp only [nestedLoop, assignLoop, nestedStep, htn]
    | undef => simp only [nestedLoop, assignLoop, nestedStep, htn]
    | val n =>
      cases hns : nestedBlockToSchemaType nb kind with
      | error e =>
        cases hc : nestedRequiredCond nb <;>
          simp only [nestedLoop, assignLoop, nestedStep, htn, hns, hc, if_true, if_false,
            Bool.false_eq_true]
      | ok t =>
        cases hc : nestedRequiredCond nb <;>
          simp only [nestedLoop, assignLoop, nestedStep, htn, hns, hc, if_true, if_false,
            Bool.false_eq_true] <;>
          exact ih _

theorem optionalsLoop_eq (value : Value) (props : List (String × SchemaType))
    (obj : List (String × Value)) :
    assignLoop (optionalsStep value) props obj = .ok (optionalsLoop value props obj) := by
  induction props generalizing obj with
  | nil => rfl
  | cons kv rest ih =>
    cases kv with
    | mk key t => exact ih _



theorem Value.one_le_sizeOf (v : Value) : 1 ≤ sizeOf v := by
  cases v <;> simp

/-- C7: for every value accepted by `toDynamic`, `fromDynamic (toDynamic v)`
returns `v`; for every value accepted by `toRawState`,
`fromRawState (toRawState v)` returns `v`; and `fromDynamic` applied to
JavaScript `null` or `undefined` returns its input unchanged. -/
theorem c7_codec_roundtrip (v : Value) (hacc : Value.accepted v = true) :
    fromDynamic (.val (toDynamic v)) = .ok v ∧
    fromRawState (.val (toRawState v)) = .ok v ∧
    fromDynamic .null = .ok .vnull ∧
    fromDynamic .undef = .ok .vundef := by
  refine ⟨?_, ?_, rfl, rfl⟩
  · simp only [fromDynamic, toDynamic, unpackVal_encodeVal v hacc]
  · simp only [fromRawState, toRawState, unpackVal_encodeVal v hacc]

/-- Witness for C7 at a concrete accepted value. -/
theorem c7_codec_roundtrip_witness :
    Value.accepted (.vobj [("a", .vnum 3), ("b", .varr [.vstr "x", .vnull])]) = true ∧
    fromDynamic (.val (toDynamic (.vobj [("a", .vnum 3), ("b", .varr [.vstr "x", .vnull])])))
      = .ok (.vobj [("a", .vnum 3), ("b", .varr [.vstr "x", .vnull])]) :=
  ⟨rfl, (c7_codec_roundtrip (.vobj [("a", .vnum 3), ("b", .varr [.vstr "x", .vnull])]) rfl).1⟩

theorem ctyToType_ok_of_wf :
    ∀ n, (∀ d, sizeOf d ≤ n → wellFormedCty d = true → ∃ t, ctyToType d = .ok t) ∧
      (∀ fs acc, sizeOf fs ≤ n → wellFormedFields fs = true →
        ∃ out, ctyFieldsAux fs acc = .ok out) := by
  intro n
  induction n with
  | zero =>
    constructor
    · intro d hsz _
      have := Value.one_le_sizeOf d
      omega
    · intro fs acc hsz _
      cases fs <;> simp at hsz
  | succ n ih =>
    constructor
    · intro d hsz hwf
      rw [ wellFormedCty.eq_def] at hwf
      cases d with
      | vstr s =>
        simp only [Bool.or_eq_true, beq_iff_eq] at hwf
        rcases hwf with (rfl | rfl) | rfl <;> exact ⟨_, rfl⟩
      | varr xs =>
        cases xs with
        | nil => simp at hwf
        | cons h1 t1 =>
          cases h1 with
          | vstr tag =>
            cases t1 with
            | nil => simp at hwf
            | cons d2 t2 =>
              cases t2 with
              | cons h3 t3 => simp at hwf
              | nil =>
                have hsz2 : sizeOf d2 ≤ n := by
                  simp at hsz
                  omega
                by_cases hl : tag = "list"
                · obtain ⟨t, ht⟩ := ih.1 d2 hsz2 (by rw [hl] at hwf; simpa using hwf)
                  exact ⟨.array t, by rw [hl]; simp [ctyToType, ctyTagged, ht, Except.map]⟩
                · by_cases hm : tag = "map"
                  · obtain ⟨t, ht⟩ := ih.1 d2 hsz2 (by rw [hm] at hwf; simpa using hwf)
                    exact ⟨.map t, by rw [hm]; simp [ctyToType, ctyTagged, ht, Except.map]⟩
                  · by_cases hs : tag = "set"
                    · obtain ⟨t, ht⟩ := ih.1 d2 hsz2 (by rw [hs] at hwf; simpa using hwf)
                      exact ⟨.array t, by rw [hs]; simp [ctyToType, ctyTagged, ht, Except.map]⟩
                    · by_cases ho : tag = "object"
                      · rw [ho] at hwf
                        cases d2 with
                        | vobj fs =>
                          have hwf2 : wellFormedFields fs = true := by simpa using hwf
                          obtain ⟨out, hout⟩ := ih.2 fs [] (by simp at hsz; omega) hwf2
                          exact ⟨.object out, by
                            rw [ho]
                            simp [ctyToType, ctyTagged, ctyObjectPayload, hout, Except.map]⟩
                        | vnull => simp at hwf
                        | vundef => simp at hwf
                        | vbool b => simp at hwf
                        | vnum m => simp at hwf
                        | vstr s2 => simp at hwf
                        | varr ys => simp at hwf
                      · simp [hl, hm, hs, ho] at hwf
          | vnull => simp at hwf
          | vundef => simp at hwf
          | vbool b => simp at hwf
          | vnum m => simp at hwf
          | varr ys => simp at hwf
          | vobj fs => simp at hwf
      | vnull => simp at hwf
      | vundef => simp at hwf
      | vbool b => simp at hwf
      | vnum m => simp at hwf
      | vobj fs => simp at hwf
    · intro fs acc hsz hwfF
      cases fs with
      | nil => exact ⟨acc, rfl⟩
      | cons kv t =>
        obtain ⟨k, v⟩ := kv
        rw [ wellFormedFields.eq_def] at hwfF
        simp only [Bool.and_eq_true] at hwfF
        have hszv : sizeOf v ≤ n := by
          simp at hsz
          omega
        have hszt : sizeOf t ≤ n := by
          simp at hsz
          omega
        obtain ⟨tv, htv⟩ := ih.1 v hszv hwfF.1
        obtain ⟨out, hout⟩ := ih.2 t (objAssign acc k tv) hszt hwfF.2
        refine ⟨out, ?_⟩
        simp only [ctyFieldsAux, htv]
        exact hout

/-- C8: the wire type decoder fails with the UnknownType error for the
`any` atom and for every unrecognized tag, succeeds on every well-formed
descriptor, and decodes `list` and `set` to an array of the recursively
decoded element type and `map` to a map. -/
theorem c8_ctyToType_contract :
    ctyToType (.vstr "any") = .error (.err "unknown type") ∧
    (∀ (tag : String) (payload : List Value),
      tag ≠ "list" → tag ≠ "map" → tag ≠ "set" → tag ≠ "object" →
      ctyToType (.varr (.vstr tag :: payload)) = .error (.err "Unknown type")) ∧
    (∀ d, wellFormedCty d = true → ∃ t, ctyToType d = .ok t) ∧
    (∀ d rest, ctyToType (.varr (.vstr "list" :: d :: rest))
      = (ctyToType d).map SchemaType.array) ∧
    (∀ d rest, ctyToType (.varr (.vstr "set" :: d :: rest))
      = (ctyToType d).map SchemaType.array) ∧
    (∀ d rest, ctyToType (.varr (.vstr "map" :: d :: rest))
      = (ctyToType d).map SchemaType.map) := by
  refine ⟨rfl, ?_, ?_, ?_, ?_, ?_⟩
  · intro tag payload h1 h2 h3 h4
    simp only [ctyToType]
    unfold ctyTagged
    rw [if_neg h1, if_neg h2, if_neg h3, if_neg h4]
  · intro d hwf
    exact (ctyToType_ok_of_wf (sizeOf d)).1 d (le_refl _) hwf
  · intro d rest
    simp [ctyToType, ctyTagged]
  · intro d rest
    simp [ctyToType, ctyTagged]
  · intro d rest
    simp [ctyToType, ctyTagged]

/-- Witness for C8: an unrecognized `tuple` tag fails, a well-formed nested
descriptor succeeds. -/
theorem c8_ctyToType_contract_witness :
    ctyToType (.varr [.vstr "tuple", .vstr "bool"]) = .error (.err "Unknown type") ∧
    (∃ t, ctyToType (.varr [.vstr "list", .varr [.vstr "object",
      .vobj [("a", .vstr "number")]]]) = .ok t) :=
  ⟨c8_ctyToType_contract.2.1 "tuple" [.vstr "bool"]
      (by decide) (by decide) (by decide) (by decide),
    c8_ctyToType_contract.2.2.1 _ (by decide)⟩


theorem assignLoop_find?_keyfn {α β : Type} (f : α → Except Err (String × β))
    (g : String → β) (hkey : ∀ a n v, f a = .ok (n, v) → n ∈ stepNames f [a] ∧ v = g n)
    (xs : List α) (k : String) :
    ∀ acc out, assignLoop f xs acc = .ok out → k ∈ stepNames f xs →
      out.find? (fun p => p.1 == k) = some (k, g k) := by
  induction xs with
  | nil =>
    intro acc out _ hk
    simp [stepNames] at hk
  | cons a0 rest ih =>
    intro acc out hok hk
    simp only [assignLoop] at hok
    cases hf0 : f a0 with
    | error e =>
      rw [hf0] at hok
      simp at hok
    | ok nv0 =>
      rw [hf0] at hok
      by_cases hkr : k ∈ stepNames f rest
      · exact ih _ _ hok hkr
      · rw [stepNames_cons, hf0] at hk
        simp only [List.mem_cons] at hk
        rcases hk with rfl | hk2
        · rw [assignLoop_find?_preserve f rest _ out nv0.1 hok hkr]
          have hval : nv0.2 = g nv0.1 := (hkey a0 nv0.1 nv0.2 (by rw [hf0])).2
          rw [← hval]
          exact find?_objAssign_self acc nv0.1 nv0.2
        · exact absurd hk2 hkr

theorem stepNames_optionals (value : Value) (props : List (String × SchemaType)) :
    stepNames (optionalsStep value) props = props.map Prod.fst := by
  induction props with
  | nil => rfl
  | cons kv rest ih =>
    rw [stepNames_cons]
    simp only [optionalsStep, List.map_cons]
    rw [ih]

/-- C10: the key set of `optionalsToNulls value (object props)` is exactly
the set of declared property names, so undeclared input keys are dropped;
and every declared property receives the input value unchanged unless that
value is null or undefined (absent), which are replaced by null — in
particular falsy-but-present values (false, 0, the empty string) are copied
unchanged. -/
theorem c10_optionalsToNulls (value : Value) (props : List (String × SchemaType)) :
    (∀ x, x ∈ (optionalsToNulls value (.object props)).objFields.map Prod.fst ↔
      x ∈ props.map Prod.fst) ∧
    (∀ k, k ∈ props.map Prod.fst →
      (optionalsToNulls value (.object props)).objFields.find? (fun p => p.1 == k)
        = some (k, if (jsGet value k).nullish then .vnull else jsGet value k)) := by
  have hfields : (optionalsToNulls value (.object props)).objFields
      = optionalsLoop value props [] := rfl
  have hloop := optionalsLoop_eq value props []
  constructor
  · intro x
    rw [hfields]
    rw [assignLoop_keys (optionalsStep value) props [] _ hloop x]
    rw [stepNames_optionals]
    simp
  · intro k hk
    rw [hfields]
    refine assignLoop_find?_keyfn (optionalsStep value)
      (fun n => if (jsGet value n).nullish then .vnull else jsGet value n) ?_ props k []
      _ hloop ?_
    · intro a n v hf
      simp only [optionalsStep, Except.ok.injEq, Prod.mk.injEq] at hf
      constructor
      · rw [stepNames_cons]
        simp [optionalsStep, hf.1]
      · rw [← hf.1]
        exact hf.2.symm
    · rw [stepNames_optionals]
      exact hk

/-- Witness for C10: a declared property with a present-but-falsy value is
copied unchanged, a declared property absent from the input becomes null,
an undeclared input key is dropped. -/
theorem c10_optionalsToNulls_witness :
    (optionalsToNulls (.vobj [("a", .vbool false), ("c", .vnum 1)])
        (.object [("a", .boolean), ("b", .optional .boolean)])).objFields.find?
      (fun p => p.1 == "a") = some ("a", .vbool false) ∧
    (optionalsToNulls (.vobj [("a", .vbool false), ("c", .vnum 1)])
        (.object [("a", .boolean), ("b", .optional .boolean)])).objFields.find?
      (fun p => p.1 == "b") = some ("b", .vnull) ∧
    optionalsToNulls (.vobj [("a", .vbool false), ("c", .vnum 1)])
        (.object [("a", .boolean), ("b", .optional .boolean)])
      = .vobj [("a", .vbool false), ("b", .vnull)] :=
  ⟨(c10_optionalsToNulls (.vobj [("a", .vbool false), ("c", .vnum 1)])
      [("a", .boolean), ("b", .optional .boolean)]).2 "a" (by decide),
    (c10_optionalsToNulls (.vobj [("a", .vbool false), ("c", .vnum 1)])
      [("a", .boolean), ("b", .optional .boolean)]).2 "b" (by decide),
    rfl⟩


theorem blockToSchemaType_ATTRS_eq (as : List Attribute)
    (bts : JsOpt (List NestedBlock)) :
    blockToSchemaType (.mk (.val as) bts) .ATTRS
      = (attrsLoop .ATTRS as []).map SchemaType.object := by
  cases bts <;>
    cases h : attrsLoop .ATTRS as [] <;>
    simp [blockToSchemaType, jsListD, h, Except.map]

theorem blockToSchemaType_ARGS_eq (as : List Attribute)
    (bts : JsOpt (List NestedBlock)) :
    blockToSchemaType (.mk (.val as) bts) .ARGS
      = match attrsLoop .ARGS as [] with
        | .error e => .error e
        | .ok attrs => (nestedLoop .ARGS (jsListD bts) attrs).map SchemaType.object := by
  cases bts with
  | val l =>
    cases h : attrsLoop .ARGS as [] with
    | error e => simp [blockToSchemaType, jsListD, h]
    | ok attrs =>
      cases h2 : nestedLoop .ARGS l attrs <;>
        simp [blockToSchemaType, jsListD, h, h2, Except.map]
  | null =>
    cases h : attrsLoop .ARGS as [] with
    | error e => simp [blockToSchemaType, jsListD, h]
    | ok attrs => simp [blockToSchemaType, jsListD, h, nestedLoop, Except.map]
  | undef =>
    cases h : attrsLoop .ARGS as [] with
    | error e => simp [blockToSchemaType, jsListD, h]
    | ok attrs => simp [blockToSchemaType, jsListD, h, nestedLoop, Except.map]

theorem attrStep_of_parts (kind : Kind) (a : Attribute) (n : String) (tb : List Nat)
    (t : SchemaType) (hname : a.name = .val n) (htype : a.type = .val tb)
    (hdec : decodeCtyType tb = .ok t) :
    attrStep kind a = .ok (n, if attrOptionalCond kind a then .optional t else t) := by
  simp only [attrStep, htype, hname, hdec]

/-- C1 (amended): under ATTRS an attribute is marked optional exactly when
it is neither `required` nor `computed` — so a computed attribute stays
non-optional under ATTRS, and an attribute with none of the three flags set
is marked optional under ATTRS; under ARGS an attribute is marked optional
exactly when it is `optional` or `computed`. -/
theorem c1_attribute_optionality_amended
    (as : List Attribute) (bts : JsOpt (List NestedBlock))
    (a : Attribute) (n : String) (tb : List Nat) (t : SchemaType)
    (ha : a ∈ as) (hname : a.name = .val n) (htype : a.type = .val tb)
    (hdec : decodeCtyType tb = .ok t) :
    (∀ out, (stepNames (attrStep .ATTRS) as).Nodup →
      blockToSchemaType (.mk (.val as) bts) .ATTRS = .ok out →
      ∃ props, out = .object props ∧
        props.find? (fun p => p.1 == n)
          = some (n, if (!a.required && !a.computed) = true then .optional t else t)) ∧
    (∀ out, (stepNames (attrStep .ARGS) as).Nodup →
      n ∉ stepNames (nestedStep .ARGS) (jsListD bts) →
      blockToSchemaType (.mk (.val as) bts) .ARGS = .ok out →
      ∃ props, out = .object props ∧
        props.find? (fun p => p.1 == n)
          = some (n, if (a.optional || a.computed) = true then .optional t else t)) := by
  constructor
  · intro out hnd hok
    rw [blockToSchemaType_ATTRS_eq] at hok
    cases hloop : attrsLoop .ATTRS as [] with
    | error e => rw [hloop] at hok; simp [Except.map] at hok
    | ok props =>
      rw [hloop] at hok
      simp only [Except.map, Except.ok.injEq] at hok
      refine ⟨props, hok.symm, ?_⟩
      have hstep := attrStep_of_parts .ATTRS a n tb t hname htype hdec
      have hloop2 : assignLoop (attrStep .ATTRS) as [] = .ok props := by
        rw [← attrsLoop_eq]
        exact hloop
      have := assignLoop_find?_of_mem (attrStep .ATTRS) as a n
        (if attrOptionalCond .ATTRS a then .optional t else t) hstep [] props hloop2 hnd ha
      simpa [attrOptionalCond] using this
  · intro out hnd hnb hok
    rw [blockToSchemaType_ARGS_eq] at hok
    cases hloop : attrsLoop .ARGS as [] with
    | error e => rw [hloop] at hok; simp at hok
    | ok attrs0 =>
      rw [hloop] at hok
      simp only [] at hok
      cases hnl : nestedLoop .ARGS (jsListD bts) attrs0 with
      | error e => rw [hnl] at hok; simp [Except.map] at hok
      | ok props =>
        rw [hnl] at hok
        simp only [Except.map, Except.ok.injEq] at hok
        refine ⟨props, hok.symm, ?_⟩
        have hstep := attrStep_of_parts .ARGS a n tb t hname htype hdec
        have hloop2 : assignLoop (attrStep .ARGS) as [] = .ok attrs0 := by
          rw [← attrsLoop_eq]
          exact hloop
        have hnl2 : assignLoop (nestedStep .ARGS) (jsListD bts) attrs0 = .ok props := by
          rw [← nestedLoop_eq]
          exact hnl
        have hpres := assignLoop_find?_preserve (nestedStep .ARGS) (jsListD bts)
          attrs0 props n hnl2 hnb
        rw [hpres]
        have := assignLoop_find?_of_mem (attrStep .ARGS) as a n
          (if attrOptionalCond .ARGS a then .optional t else t) hstep [] attrs0 hloop2 hnd ha
        simpa [attrOptionalCond] using this

/-- Witness for the amended C1 at a concrete block: the computed attribute
`a` is optional under ARGS and non-optional under ATTRS, the flagless
attribute `b` is optional under ATTRS. -/
theorem c1_attribute_optionality_amended_witness :
    (∃ props,
      SchemaType.object [("a", SchemaType.boolean), ("b", .optional .boolean)]
        = .object props ∧
      props.find? (fun p => p.1 == "a") = some ("a", SchemaType.boolean)) ∧
    (∃ props,
      SchemaType.object [("a", .optional .boolean), ("b", SchemaType.boolean)]
        = .object props ∧
      props.find? (fun p => p.1 == "a") = some ("a", .optional .boolean)) := by
  constructor
  · exact (c1_attribute_optionality_amended
      [⟨.val "a", .val (encodeVal (.vstr "bool")), false, false, true⟩,
        ⟨.val "b", .val (encodeVal (.vstr "bool")), false, false, false⟩] (.val [])
      ⟨.val "a", .val (encodeVal (.vstr "bool")), false, false, true⟩
      "a" (encodeVal (.vstr "bool")) .boolean
      (by simp) rfl rfl rfl).1
      (.object [("a", SchemaType.boolean), ("b", .optional .boolean)])
      (by decide) rfl
  · exact (c1_attribute_optionality_amended
      [⟨.val "a", .val (encodeVal (.vstr "bool")), false, false, true⟩,
        ⟨.val "b", .val (encodeVal (.vstr "bool")), true, false, false⟩] (.val [])
      ⟨.val "a", .val (encodeVal (.vstr "bool")), false, false, true⟩
      "a" (encodeVal (.vstr "bool")) .boolean
      (by simp) rfl rfl rfl).2
      (.object [("a", .optional .boolean), ("b", SchemaType.boolean)])
      (by decide) (by decide) rfl

/-- Counterexample to C1 as stated: in a block with attribute `a` marked
only `computed` and attribute `b` with none of the flags set, translation
under ATTRS leaves `a` non-optional (the claim says optional) and marks `b`
optional (the claim says non-optional). -/
theorem c1_counterexample :
    resultPropIsOptional
      (blockToSchemaType (.mk (.val
        [⟨.val "a", .val (encodeVal (.vstr "bool")), false, false, true⟩,
          ⟨.val "b", .val (encodeVal (.vstr "bool")), false, false, false⟩]) (.val []))
        .ATTRS) "a" = false ∧
    resultPropIsOptional
      (blockToSchemaType (.mk (.val
        [⟨.val "a", .val (encodeVal (.vstr "bool")), false, false, true⟩,
          ⟨.val "b", .val (encodeVal (.vstr "bool")), false, false, false⟩]) (.val []))
        .ATTRS) "b" = true :=
  ⟨rfl, rfl⟩


theorem nestedStep_of_parts (kind : Kind) (nb : NestedBlock) (n : String)
    (w : SchemaType) (hname : nb.typeName = .val n)
    (hw : nestedBlockToSchemaType nb kind = .ok w) :
    nestedStep kind nb = .ok (n, if nestedRequiredCond nb then w else .optional w) := by
  simp only [nestedStep, hname, hw]

/-- C4: translation under ATTRS produces an object whose properties come
exactly from the attributes (no nested-block-derived properties); under
ARGS the object has one property per attribute and per nested block, a
nested block property being the nesting-mode wrap of its translated inner
block, under the translator optionality marker; and the nesting-mode wrap
is: SINGLE and GROUP the bare inner object type, LIST and SET an array of
it unless `maxItems === 1` (then the bare inner type), MAP a map of it. -/
theorem c4_block_translation :
    (∀ (as : List Attribute) (bts : JsOpt (List NestedBlock)) out,
      blockToSchemaType (.mk (.val as) bts) .ATTRS = .ok out →
      ∃ props, out = .object props ∧
        ∀ x, x ∈ props.map Prod.fst ↔ x ∈ stepNames (attrStep .ATTRS) as) ∧
    (∀ (as : List Attribute) (bts : JsOpt (List NestedBlock)) out,
      blockToSchemaType (.mk (.val as) bts) .ARGS = .ok out →
      ∃ props, out = .object props ∧
        ∀ x, x ∈ props.map Prod.fst ↔
          x ∈ stepNames (attrStep .ARGS) as ∨
          x ∈ stepNames (nestedStep .ARGS) (jsListD bts)) ∧
    (∀ (as : List Attribute) (bts : JsOpt (List NestedBlock)) out
      (nb : NestedBlock) (n : String) (w : SchemaType),
      (stepNames (nestedStep .ARGS) (jsListD bts)).Nodup →
      nb ∈ jsListD bts → nb.typeName = .val n →
      nestedBlockToSchemaType nb .ARGS = .ok w →
      blockToSchemaType (.mk (.val as) bts) .ARGS = .ok out →
      ∃ props, out = .object props ∧
        props.find? (fun p => p.1 == n)
          = some (n, if nestedRequiredCond nb then w else .optional w)) ∧
    (∀ (nb : NestedBlock) (b : Block) (inner : SchemaType) (kind : Kind),
      nb.block = .val b → blockToSchemaType b kind = .ok inner →
      ((nb.nesting = .val .SINGLE ∨ nb.nesting = .val .GROUP) →
        nestedBlockToSchemaType nb kind = .ok inner) ∧
      ((nb.nesting = .val .LIST ∨ nb.nesting = .val .SET) →
        nestedBlockToSchemaType nb kind
          = .ok (if nb.maxItems = .val 1 then inner else .array inner)) ∧
      (nb.nesting = .val .MAP →
        nestedBlockToSchemaType nb kind = .ok (.map inner))) := by
  refine ⟨?_, ?_, ?_, ?_⟩
  · intro as bts out hok
    rw [blockToSchemaType_ATTRS_eq] at hok
    cases hloop : attrsLoop .ATTRS as [] with
    | error e => rw [hloop] at hok; simp [Except.map] at hok
    | ok props =>
      rw [hloop] at hok
      simp only [Except.map, Except.ok.injEq] at hok
      refine ⟨props, hok.symm, fun x => ?_⟩
      have hloop2 : assignLoop (attrStep .ATTRS) as [] = .ok props := by
        rw [← attrsLoop_eq]
        exact hloop
      rw [assignLoop_keys (attrStep .ATTRS) as [] props hloop2 x]
      simp
  · intro as bts out hok
    rw [blockToSchemaType_ARGS_eq] at hok
    cases hloop : attrsLoop .ARGS as [] with
    | error e => rw [hloop] at hok; simp at hok
    | ok attrs0 =>
      rw [hloop] at hok
      simp only [] at hok
      cases hnl : nestedLoop .ARGS (jsListD bts) attrs0 with
      | error e => rw [hnl] at hok; simp [Except.map] at hok
      | ok props =>
        rw [hnl] at hok
        simp only [Except.map, Except.ok.injEq] at hok
        refine ⟨props, hok.symm, fun x => ?_⟩
        have hloop2 : assignLoop (attrStep .ARGS) as [] = .ok attrs0 := by
          rw [← attrsLoop_eq]
          exact hloop
        have hnl2 : assignLoop (nestedStep .ARGS) (jsListD bts) attrs0 = .ok props := by
          rw [← nestedLoop_eq]
          exact hnl
        rw [assignLoop_keys (nestedStep .ARGS) (jsListD bts) attrs0 props hnl2 x]
        rw [assignLoop_keys (attrStep .ARGS) as [] attrs0 hloop2 x]
        simp
  · intro as bts out nb n w hnd hmem hname hw hok
    rw [blockToSchemaType_ARGS_eq] at hok
    cases hloop : attrsLoop .ARGS as [] with
    | error e => rw [hloop] at hok; simp at hok
    | ok attrs0 =>
      rw [hloop] at hok
      simp only [] at hok
      cases hnl : nestedLoop .ARGS (jsListD bts) attrs0 with
      | error e => rw [hnl] at hok; simp [Except.map] at hok
      | ok props =>
        rw [hnl] at hok
        simp only [Except.map, Except.ok.injEq] at hok
        refine ⟨props, hok.symm, ?_⟩
        have hnl2 : assignLoop (nestedStep .ARGS) (jsListD bts) attrs0 = .ok props := by
          rw [← nestedLoop_eq]
          exact hnl
        exact assignLoop_find?_of_mem (nestedStep .ARGS) (jsListD bts) nb n
          (if nestedRequiredCond nb then w else .optional w)
          (nestedStep_of_parts .ARGS nb n w hname hw) attrs0 props hnl2 hnd hmem
  · intro nb b inner kind hblock hinner
    obtain ⟨tn, ns, mi, ma, bl⟩ := nb
    simp only [NestedBlockF.block] at hblock
    subst hblock
    refine ⟨?_, ?_, ?_⟩
    · rintro (hns | hns) <;> simp only [NestedBlockF.nesting] at hns <;> subst hns <;>
        simp [nestedBlockToSchemaType, hinner]
    · rintro (hns | hns) <;> simp only [NestedBlockF.nesting] at hns <;> subst hns <;>
        simp only [nestedBlockToSchemaType, hinner, NestedBlockF.maxItems]
    · intro hns
      simp only [NestedBlockF.nesting] at hns
      subst hns
      simp [nestedBlockToSchemaType, hinner]

/-- Witness for C4 at concrete nested blocks: the LIST wrap collapses with
`maxItems = 1` and wraps in an array otherwise, MAP wraps in a map, and a
SINGLE nested block appears as a property of the ARGS translation. -/
theorem c4_block_translation_witness :
    nestedBlockToSchemaType ⟨.val "nl", .val .LIST, .null, .val 1,
      .val (.mk (.val []) (.val []))⟩ .ARGS = .ok (.object []) ∧
    nestedBlockToSchemaType ⟨.val "nl2", .val .LIST, .null, .null,
      .val (.mk (.val []) (.val []))⟩ .ARGS = .ok (.array (.object [])) ∧
    nestedBlockToSchemaType ⟨.val "nm", .val .MAP, .null, .null,
      .val (.mk (.val []) (.val []))⟩ .ARGS = .ok (.map (.object [])) ∧
    (∃ props, SchemaType.object [("ns", SchemaType.object [])] = .object props ∧
      props.find? (fun p => p.1 == "ns") = some ("ns", SchemaType.object [])) := by
  refine ⟨?_, ?_, ?_, ?_⟩
  · exact ((c4_block_translation.2.2.2 ⟨.val "nl", .val .LIST, .null, .val 1,
      .val (.mk (.val []) (.val []))⟩ (.mk (.val []) (.val []))
      (.object []) .ARGS rfl rfl).2.1 (Or.inl rfl))
  · exact ((c4_block_translation.2.2.2 ⟨.val "nl2", .val .LIST, .null, .null,
      .val (.mk (.val []) (.val []))⟩ (.mk (.val []) (.val []))
      (.object []) .ARGS rfl rfl).2.1 (Or.inl rfl))
  · exact ((c4_block_translation.2.2.2 ⟨.val "nm", .val .MAP, .null, .null,
      .val (.mk (.val []) (.val []))⟩ (.mk (.val []) (.val []))
      (.object []) .ARGS rfl rfl).2.2 rfl)
  · have h := c4_block_translation.2.2.1 []
      (.val [⟨.val "ns", .val .SINGLE, .val 1, .null, .val (.mk (.val []) (.val []))⟩])
      (.object [("ns", SchemaType.object [])])
      ⟨.val "ns", .val .SINGLE, .val 1, .null, .val (.mk (.val []) (.val []))⟩
      "ns" (.object [])
    have h2 := h (by constructor <;> simp) (by exact List.mem_cons_self _ _) rfl rfl rfl
    simpa using h2


/-- C9: provider construction fails fast with the read error unless the
schema response carries a provider schema with a block; when all five
translations succeed it retains exactly the five decoded schema trees
(provider ARGS; data-source and resource ARGS; data-source and resource
ATTRS). -/
theorem c9_provider_construction :
    (∀ (dss rss : List (String × ISchema)) (diags : List Diagnostic),
      providerConstructor ⟨.null, dss, rss, diags⟩
        = .error (.err "Unable to read provider schema") ∧
      providerConstructor ⟨.undef, dss, rss, diags⟩
        = .error (.err "Unable to read provider schema")) ∧
    (∀ (ps : ISchema) (dss rss : List (String × ISchema)) (diags : List Diagnostic),
      (ps.block = .null ∨ ps.block = .undef) →
      providerConstructor ⟨.val ps, dss, rss, diags⟩
        = .error (.err "Unable to read provider schema")) ∧
    (∀ (ps : ISchema) (b : Block) (dss rss : List (String × ISchema))
      (diags : List Diagnostic) (t1 : SchemaType)
      (t2 t3 t4 t5 : List (String × SchemaType)),
      ps.block = .val b →
      tfSchemaToSchemaType ps .ARGS = .ok t1 →
      tfSchemasRecordToSchemaTypeRecord dss .ARGS = .ok t2 →
      tfSchemasRecordToSchemaTypeRecord rss .ARGS = .ok t3 →
      tfSchemasRecordToSchemaTypeRecord dss .ATTRS = .ok t4 →
      tfSchemasRecordToSchemaTypeRecord rss .ATTRS = .ok t5 →
      providerConstructor ⟨.val ps, dss, rss, diags⟩ = .ok ⟨t1, t2, t3, t4, t5⟩) := by
  refine ⟨?_, ?_, ?_⟩
  · intro dss rss diags
    exact ⟨rfl, rfl⟩
  · intro ps dss rss diags hb
    obtain ⟨bl⟩ := ps
    rcases hb with hb | hb <;> simp only [ISchema.block] at hb <;> subst hb <;> rfl
  · intro ps b dss rss diags t1 t2 t3 t4 t5 hb h1 h2 h3 h4 h5
    obtain ⟨bl⟩ := ps
    simp only [ISchema.block] at hb
    subst hb
    simp only [providerConstructor, h1, h2, h3, h4, h5]

/-- Witness for C9 at a concrete schema response with one data source and
one resource. -/
theorem c9_provider_construction_witness :
    providerConstructor ⟨.null, [], [], []⟩
      = .error (.err "Unable to read provider schema") ∧
    providerConstructor
      ⟨.val ⟨.val (.mk (.val []) (.val []))⟩,
        [("ds", ⟨.val (.mk (.val []) (.val []))⟩)],
        [("w", ⟨.val (.mk (.val []) (.val []))⟩)], []⟩
      = .ok ⟨.object [], [("ds", .object [])], [("w", .object [])],
          [("ds", .object [])], [("w", .object [])]⟩ :=
  ⟨(c9_provider_construction.1 [] [] []).1,
    c9_provider_construction.2.2 ⟨.val (.mk (.val []) (.val []))⟩
      (.mk (.val []) (.val []))
      [("ds", ⟨.val (.mk (.val []) (.val []))⟩)]
      [("w", ⟨.val (.mk (.val []) (.val []))⟩)] []
      (.object []) [("ds", .object [])] [("w", .object [])]
      [("ds", .object [])] [("w", .object [])]
      rfl rfl rfl rfl rfl rfl⟩

/-- C6: `readResource` resolves to `undefined` when the response carries an
absent new state, while `readDataSource`, `planResourceChange` and
`applyResourceChange` fail with their read errors when the corresponding
decoded state is absent. -/
theorem c6_readResource_absence :
    (∀ (p : Provider) (typeName : String) (currentState : Value) (priv : Option Value)
      (rpc : ReadResourceRequest → ReadResourceResponse) (sch : SchemaType),
      recordGet p.resourceStateSchemas typeName = some sch →
      ((rpc (mkReadResourceRequest typeName currentState priv)).newState = .null ∨
        (rpc (mkReadResourceRequest typeName currentState priv)).newState = .undef) →
      (rpc (mkReadResourceRequest typeName currentState priv)).diagnostics = [] →
      Provider.readResource p typeName currentState priv rpc = .ok .vundef) ∧
    (∀ (p : Provider) (typeName : String) (config : Value)
      (rpc : ReadDataSourceRequest → ReadDataSourceResponse) (sch : SchemaType),
      recordGet p.dataSourceSchemas typeName = some sch →
      validate sch config = true →
      ((rpc (mkReadDataSourceRequest typeName config sch)).state = .null ∨
        (rpc (mkReadDataSourceRequest typeName config sch)).state = .undef) →
      (rpc (mkReadDataSourceRequest typeName config sch)).diagnostics = [] →
      Provider.readDataSource p typeName config rpc
        = .error (.err "Unable to read state from data source")) ∧
    (∀ (p : Provider) (typeName : String) (prior proposed : Value) (priv : Option Value)
      (rpc : PlanResourceChangeRequest → PlanResourceChangeResponse) (sch : SchemaType),
      recordGet p.resourceStateSchemas typeName = some sch →
      ((rpc (mkPlanRequest typeName prior proposed priv)).plannedState = .null ∨
        (rpc (mkPlanRequest typeName prior proposed priv)).plannedState = .undef) →
      (rpc (mkPlanRequest typeName prior proposed priv)).diagnostics = [] →
      Provider.planResourceChange p typeName prior proposed priv rpc
        = .error (.err "Unable to read planned state")) ∧
    (∀ (p : Provider) (typeName : String) (prior planned : Value) (priv : Option Value)
      (rpc : ApplyResourceChangeRequest → ApplyResourceChangeResponse),
      ((rpc (mkApplyRequest typeName prior planned priv)).newState = .null ∨
        (rpc (mkApplyRequest typeName prior planned priv)).newState = .undef) →
      (rpc (mkApplyRequest typeName prior planned priv)).diagnostics = [] →
      Provider.applyResourceChange p typeName prior planned priv rpc
        = .error (.err "Unable to read planned state")) := by
  refine ⟨?_, ?_, ?_, ?_⟩
  · intro p typeName currentState priv rpc sch hlk hns hd
    rcases hns with hns | hns <;>
      simp only [Provider.readResource, hlk, throwDiagnosticErrors, hd, hns,
        List.isEmpty_nil, if_true, Bind.bind, Except.bind, fromDynamic, Value.nullish]
  · intro p typeName config rpc sch hlk hv hns hd
    rcases hns with hns | hns <;>
      simp only [Provider.readDataSource, hlk, validateOrThrow, hv, if_true,
        throwDiagnosticErrors, hd, hns, List.isEmpty_nil, Bind.bind, Except.bind,
        fromDynamic, Value.falsy]
  · intro p typeName prior proposed priv rpc sch hlk hns hd
    rcases hns with hns | hns <;>
      simp only [Provider.planResourceChange, hlk, throwDiagnosticErrors, hd, hns,
        List.isEmpty_nil, if_true, Bind.bind, Except.bind, fromDynamic, Value.falsy]
  · intro p typeName prior planned priv rpc hns hd
    rcases hns with hns | hns <;>
      simp only [Provider.applyResourceChange, throwDiagnosticErrors, hd, hns,
        List.isEmpty_nil, if_true, Bind.bind, Except.bind, fromDynamic, Value.falsy]

/-- Witness for C6: a concrete `readResource` on an absent state resolves to
`undefined`, and the concrete plan path fails on an absent planned state. -/
theorem c6_readResource_absence_witness :
    Provider.readResource ⟨.object [], [], [], [], [("w", .object [])]⟩ "w" .vnull none
      (fun _ => ⟨.null, []⟩) = .ok .vundef ∧
    Provider.planResourceChange ⟨.object [], [], [], [], [("w", .object [])]⟩ "w"
      .vnull .vnull none (fun _ => ⟨.null, [], .val (encodeVal (.vobj [])), []⟩)
      = .error (.err "Unable to read planned state") :=
  ⟨c6_readResource_absence.1 ⟨.object [], [], [], [], [("w", .object [])]⟩ "w" .vnull none
      (fun _ => ⟨.null, []⟩) (.object []) rfl (Or.inl rfl) rfl,
    c6_readResource_absence.2.2.1 ⟨.object [], [], [], [], [("w", .object [])]⟩ "w"
      .vnull .vnull none (fun _ => ⟨.null, [], .val (encodeVal (.vobj [])), []⟩)
      (.object []) rfl (Or.inl rfl) rfl⟩

/-- C5 (amended): `readDataSource`, `readResource` and `planResourceChange`
fail with the InvalidType error, before any wire call is made (for every
RPC oracle, without invoking it), when the given type name is absent from
the relevant schema table; `applyResourceChange` performs no such lookup —
its result never depends on the schema tables. -/
theorem c5_lookup_invalidType_amended :
    (∀ (p : Provider) (typeName : String) (config : Value)
      (rpc : ReadDataSourceRequest → ReadDataSourceResponse),
      recordGet p.dataSourceSchemas typeName = none →
      Provider.readDataSource p typeName config rpc
        = .error (.typeError ("Invalid data source type " ++ typeName))) ∧
    (∀ (p : Provider) (typeName : String) (currentState : Value) (priv : Option Value)
      (rpc : ReadResourceRequest → ReadResourceResponse),
      recordGet p.resourceStateSchemas typeName = none →
      Provider.readResource p typeName currentState priv rpc
        = .error (.typeError ("Invalid resource type " ++ typeName))) ∧
    (∀ (p : Provider) (typeName : String) (prior proposed : Value) (priv : Option Value)
      (rpc : PlanResourceChangeRequest → PlanResourceChangeResponse),
      recordGet p.resourceStateSchemas typeName = none →
      Provider.planResourceChange p typeName prior proposed priv rpc
        = .error (.typeError ("Invalid resource type " ++ typeName))) ∧
    (∀ (p p2 : Provider) (typeName : String) (prior planned : Value) (priv : Option Value)
      (rpc : ApplyResourceChangeRequest → ApplyResourceChangeResponse),
      Provider.applyResourceChange p typeName prior planned priv rpc
        = Provider.applyResourceChange p2 typeName prior planned priv rpc) := by
  refine ⟨?_, ?_, ?_, ?_⟩
  · intro p typeName config rpc hlk
    simp only [Provider.readDataSource, hlk]
  · intro p typeName currentState priv rpc hlk
    simp only [Provider.readResource, hlk]
  · intro p typeName prior proposed priv rpc hlk
    simp only [Provider.planResourceChange, hlk]
  · intro p p2 typeName prior planned priv rpc
    rfl

/-- Witness for the amended C5: a concrete `readDataSource` with an unknown
type fails with the InvalidType error without consulting the oracle. -/
theorem c5_lookup_invalidType_amended_witness :
    Provider.readDataSource ⟨.object [], [], [], [], []⟩ "unknown_type" (.vobj [])
      (fun _ => ⟨.null, []⟩)
      = .error (.typeError ("Invalid data source type " ++ "unknown_type")) :=
  c5_lookup_invalidType_amended.1 ⟨.object [], [], [], [], []⟩ "unknown_type" (.vobj [])
    (fun _ => ⟨.null, []⟩) rfl

/-- Counterexample to C5 as stated: `applyResourceChange` on a provider
whose resource table does not contain the given type name does not fail
with the InvalidType error — it proceeds to the wire call and succeeds. -/
theorem c5_counterexample :
    Provider.applyResourceChange ⟨.object [], [], [], [], []⟩ "unknown_widget"
      .vnull .vnull none
      (fun _ => ⟨.val (toDynamic (.vstr "s")), .val (encodeVal (.vobj [])), []⟩)
      = .ok ⟨.vstr "s", .vobj []⟩ ∧
    Provider.applyResourceChange ⟨.object [], [], [], [], []⟩ "unknown_widget"
      .vnull .vnull none
      (fun _ => ⟨.val (toDynamic (.vstr "s")), .val (encodeVal (.vobj [])), []⟩)
      ≠ .error (.typeError ("Invalid resource type " ++ "unknown_widget")) := by
  constructor
  · rfl
  · intro h
    have h1 : Provider.applyResourceChange ⟨.object [], [], [], [], []⟩ "unknown_widget"
        .vnull .vnull none
        (fun _ => ⟨.val (toDynamic (.vstr "s")), .val (encodeVal (.vobj [])), []⟩)
        = .ok ⟨.vstr "s", .vobj []⟩ := rfl
    rw [h1] at h
    exact Except.noConfusion h

/-- C2: the plan request carries `priorPrivate` bytes equal to the JSON
encoding of the supplied private mapping; but a response whose
`plannedPrivate` bytes are empty or absent makes the call fail with the
`JSON.parse` SyntaxError (the `?? {}` default never fires), instead of
returning the empty mapping the spec prescribes. -/
theorem c2_plan_private_threading :
    (∀ (typeName : String) (prior proposed m : Value), m.falsy = false →
      (mkPlanRequest typeName prior proposed (some m)).priorPrivate
        = some (encodeVal m)) ∧
    Provider.planResourceChange ⟨.object [], [], [], [], [("widget", .object [])]⟩
      "widget" .vnull .vnull (some (.vobj [("tag", .vstr "x")]))
      (fun _ => ⟨.val (toDynamic (.vstr "s")), [], .val [], []⟩)
      = .error (.jsonError "Unexpected end of JSON input") ∧
    Provider.planResourceChange ⟨.object [], [], [], [], [("widget", .object [])]⟩
      "widget" .vnull .vnull (some (.vobj [("tag", .vstr "x")]))
      (fun _ => ⟨.val (toDynamic (.vstr "s")), [], .null, []⟩)
      = .error (.jsonError "Unexpected end of JSON input") := by
  refine ⟨?_, rfl, rfl⟩
  intro typeName prior proposed m hm
  simp [mkPlanRequest, privateDataField, hm]

/-- Witness for C2 at the concrete private mapping of the spec scenario. -/
theorem c2_plan_private_threading_witness :
    (mkPlanRequest "widget" .vnull .vnull (some (.vobj [("tag", .vstr "x")]))).priorPrivate
      = some (encodeVal (.vobj [("tag", .vstr "x")])) :=
  c2_plan_private_threading.1 "widget" .vnull .vnull (.vobj [("tag", .vstr "x")]) rfl


/-- C3: every façade operation whose response carries a diagnostics list —
getSchema, applyResourceChange, planResourceChange, readDataSource,
readResource, upgradeResourceState, importResourceState, and both steps of
configure — throws the DiagnosticError carrying the response diagnostics
whenever that list is non-empty, while the two validate operations return
their response, diagnostics included, as data without throwing. -/
theorem c3_diagnostics :
    (∀ (p : Provider) (rpc : Unit → GetProviderSchemaResponse),
      (rpc ()).diagnostics ≠ [] →
      Provider.getSchema p rpc = .error (.diagnosticError (rpc ()).diagnostics)) ∧
    (∀ (p : Provider) (typeName : String) (prior planned : Value) (priv : Option Value)
      (rpc : ApplyResourceChangeRequest → ApplyResourceChangeResponse),
      (rpc (mkApplyRequest typeName prior planned priv)).diagnostics ≠ [] →
      Provider.applyResourceChange p typeName prior planned priv rpc
        = .error (.diagnosticError
            (rpc (mkApplyRequest typeName prior planned priv)).diagnostics)) ∧
    (∀ (p : Provider) (typeName : String) (prior proposed : Value) (priv : Option Value)
      (rpc : PlanResourceChangeRequest → PlanResourceChangeResponse) (sch : SchemaType),
      recordGet p.resourceStateSchemas typeName = some sch →
      (rpc (mkPlanRequest typeName prior proposed priv)).diagnostics ≠ [] →
      Provider.planResourceChange p typeName prior proposed priv rpc
        = .error (.diagnosticError
            (rpc (mkPlanRequest typeName prior proposed priv)).diagnostics)) ∧
    (∀ (p : Provider) (typeName : String) (config : Value)
      (rpc : ReadDataSourceRequest → ReadDataSourceResponse) (sch : SchemaType),
      recordGet p.dataSourceSchemas typeName = some sch →
      validate sch config = true →
      (rpc (mkReadDataSourceRequest typeName config sch)).diagnostics ≠ [] →
      Provider.readDataSource p typeName config rpc
        = .error (.diagnosticError
            (rpc (mkReadDataSourceRequest typeName config sch)).diagnostics)) ∧
    (∀ (p : Provider) (typeName : String) (currentState : Value) (priv : Option Value)
      (rpc : ReadResourceRequest → ReadResourceResponse) (sch : SchemaType),
      recordGet p.resourceStateSchemas typeName = some sch →
      (rpc (mkReadResourceRequest typeName currentState priv)).diagnostics ≠ [] →
      Provider.readResource p typeName currentState priv rpc
        = .error (.diagnosticError
            (rpc (mkReadResourceRequest typeName currentState priv)).diagnostics)) ∧
    (∀ (p : Provider) (typeName : String) (version : Int) (state : Value)
      (rpc : UpgradeResourceStateRequest → UpgradeResourceStateResponse),
      (rpc (mkUpgradeRequest typeName version state)).diagnostics ≠ [] →
      Provider.upgradeResourceState p typeName version state rpc
        = .error (.diagnosticError
            (rpc (mkUpgradeRequest typeName version state)).diagnostics)) ∧
    (∀ (p : Provider) (typeName idv : String)
      (rpc : ImportResourceStateRequest → ImportResourceStateResponse),
      (rpc ⟨typeName, idv⟩).diagnostics ≠ [] →
      Provider.importResourceState p typeName idv rpc
        = .error (.diagnosticError (rpc ⟨typeName, idv⟩).diagnostics)) ∧
    (∀ (p : Provider) (config : Value)
      (rpcPrepare : PrepareProviderConfigRequest → PrepareProviderConfigResponse)
      (rpcConfigure : ConfigureRequest → ConfigureResponse),
      validate p.providerSchema config = true →
      (rpcPrepare (mkPrepareRequest config p.providerSchema)).diagnostics ≠ [] →
      Provider.configure p config rpcPrepare rpcConfigure
        = .error (.diagnosticError
            (rpcPrepare (mkPrepareRequest config p.providerSchema)).diagnostics)) ∧
    (∀ (p : Provider) (config : Value)
      (rpcPrepare : PrepareProviderConfigRequest → PrepareProviderConfigResponse)
      (rpcConfigure : ConfigureRequest → ConfigureResponse) (pc : DynamicValue),
      validate p.providerSchema config = true →
      (rpcPrepare (mkPrepareRequest config p.providerSchema)).diagnostics = [] →
      (rpcPrepare (mkPrepareRequest config p.providerSchema)).preparedConfig = .val pc →
      (rpcConfigure ⟨pc⟩).diagnostics ≠ [] →
      Provider.configure p config rpcPrepare rpcConfigure
        = .error (.diagnosticError (rpcConfigure ⟨pc⟩).diagnostics)) ∧
    (∀ (p : Provider) (typeName : String) (config : Value)
      (rpc : ValidateDataSourceConfigRequest → ValidateDataSourceConfigResponse),
      Provider.validateDataSourceConfig p typeName config rpc
        = .ok (rpc ⟨typeName, toDynamic config⟩)) ∧
    (∀ (p : Provider) (typeName : String) (config : Value)
      (rpc : ValidateResourceTypeConfigRequest → ValidateResourceTypeConfigResponse),
      Provider.validateResourceTypeConfig p typeName config rpc
        = .ok (rpc ⟨typeName, toDynamic config⟩)) := by
  refine ⟨?_, ?_, ?_, ?_, ?_, ?_, ?_, ?_, ?_, ?_, ?_⟩
  · intro p rpc hd
    simp only [Provider.getSchema, throwDiagnosticErrors]
    rw [if_neg (by simpa [List.isEmpty_iff] using hd)]
  · intro p typeName prior planned priv rpc hd
    simp only [Provider.applyResourceChange, throwDiagnosticErrors]
    rw [if_neg (by simpa [List.isEmpty_iff] using hd)]
    rfl
  · intro p typeName prior proposed priv rpc sch hlk hd
    simp only [Provider.planResourceChange, hlk, throwDiagnosticErrors]
    rw [if_neg (by simpa [List.isEmpty_iff] using hd)]
    rfl
  · intro p typeName config rpc sch hlk hv hd
    simp only [Provider.readDataSource, hlk, validateOrThrow, hv, if_true,
      Bind.bind, Except.bind, throwDiagnosticErrors]
    rw [if_neg (by simpa [List.isEmpty_iff] using hd)]
  · intro p typeName currentState priv rpc sch hlk hd
    simp only [Provider.readResource, hlk, throwDiagnosticErrors]
    rw [if_neg (by simpa [List.isEmpty_iff] using hd)]
    rfl
  · intro p typeName version state rpc hd
    simp only [Provider.upgradeResourceState, throwDiagnosticErrors]
    rw [if_neg (by simpa [List.isEmpty_iff] using hd)]
    rfl
  · intro p typeName idv rpc hd
    simp only [Provider.importResourceState, throwDiagnosticErrors]
    rw [if_neg (by simpa [List.isEmpty_iff] using hd)]
    rfl
  · intro p config rpcPrepare rpcConfigure hv hd
    simp only [Provider.configure, validateOrThrow, hv, if_true,
      Bind.bind, Except.bind, throwDiagnosticErrors]
    rw [if_neg (by simpa [List.isEmpty_iff] using hd)]
  · intro p config rpcPrepare rpcConfigure pc hv hd0 hpc hd
    simp only [Provider.configure, validateOrThrow, hv, if_true,
      Bind.bind, Except.bind, throwDiagnosticErrors, hd0, List.isEmpty_nil, hpc]
    rw [if_neg (by simpa [List.isEmpty_iff] using hd)]
  · intro p typeName config rpc
    rfl
  · intro p typeName config rpc
    rfl

/-- Witness for C3: a concrete non-empty diagnostics list makes getSchema
and applyResourceChange throw the DiagnosticError, while
validateDataSourceConfig returns the same diagnostics as data. -/
theorem c3_diagnostics_witness :
    Provider.getSchema ⟨.object [], [], [], [], []⟩ (fun _ => ⟨.null, [], [], [⟨1, "boom", "d"⟩]⟩)
      = .error (.diagnosticError [⟨1, "boom", "d"⟩]) ∧
    Provider.applyResourceChange ⟨.object [], [], [], [], []⟩ "w" .vnull .vnull none
      (fun _ => ⟨.null, .null, [⟨1, "boom", "d"⟩]⟩)
      = .error (.diagnosticError [⟨1, "boom", "d"⟩]) ∧
    Provider.validateDataSourceConfig ⟨.object [], [], [], [], []⟩ "w" (.vobj [])
      (fun _ => ⟨[⟨1, "boom", "d"⟩]⟩) = .ok ⟨[⟨1, "boom", "d"⟩]⟩ :=
  ⟨c3_diagnostics.1 ⟨.object [], [], [], [], []⟩ (fun _ => ⟨.null, [], [], [⟨1, "boom", "d"⟩]⟩)
      (by decide),
    c3_diagnostics.2.1 ⟨.object [], [], [], [], []⟩ "w" .vnull .vnull none
      (fun _ => ⟨.null, .null, [⟨1, "boom", "d"⟩]⟩) (by decide),
    (c3_diagnostics.2.2.2.2.2.2.2.2.2.1 ⟨.object [], [], [], [], []⟩ "w" (.vobj [])
      (fun _ => ⟨[⟨1, "boom", "d"⟩]⟩))⟩

end TsTerraform
